import Mathlib

/-!
# Verification of the google-1gram word-validation pipeline

A shallow embedding of the two validation drivers of the repository,
`cleanse-dictionary.py` and `wiktionary_locale_dump.py`, together with proofs
and refutations of the specified properties of the classification engine:
outcome bucketing, the validated-target early stop, capitalization-merge
policy, retry/backoff behaviour, worker-fault isolation, and the two pure
helpers `normalize_term` and `url_title`.

Conventions of the embedding:
* Python strings are Lean `String`s (or `List Char` for the character-scanning
  helpers); case and whitespace predicates use Lean's ASCII `Char` functions,
  which agree with Python's on the ASCII inputs the programs process.
* JSON documents returned by the Wiktionary REST endpoint are values of the
  `Json` inductive below; `dict.get` is association-list lookup.
* The network is scripted: a lookup client consumes a list of scripted events
  (one per HTTP request), and a classifier receives the lookup client's
  result through an oracle function, mirroring the call boundary in the
  source.  `time.sleep` is recorded as the slept duration (a rational).
* The HTML strippers (`strip_html` in both files) are HTML-parsing
  collaborators orthogonal to the classification logic; they are passed as an
  explicit function parameter `strip_html` wherever the source calls them.
-/

/-- JSON-like documents as returned by `resp.json()`.  Python dicts are
association lists with distinct keys, in insertion order. -/
inductive Json where
  | null : Json
  | bool (b : Bool) : Json
  | num (n : Int) : Json
  | str (s : String) : Json
  | arr (elems : List Json) : Json
  | obj (fields : List (String × Json)) : Json

/-- Python `d.get(key)` on a dict (first binding wins; keys are unique).
On a non-dict the source would raise `AttributeError`; the embedding returns
`none` (no claim exercises that path). -/
def Json.get : Json → String → Option Json
  | .obj fields, key => fields.lookup key
  | _, _ => none

/-- `isinstance(x, dict)` -/
def Json.isObj : Json → Bool
  | .obj _ => true
  | _ => false

/-- Python dict item assignment `d[key] = v`: replaces the value of an
existing key in place, otherwise appends the binding. -/
def setField : List (String × Json) → String → Json → List (String × Json)
  | [], key, v => [(key, v)]
  | (k, w) :: rest, key, v =>
    if k = key then (key, v) :: rest else (k, w) :: setField rest key v

/-- Python truthiness test `isinstance(data, dict) and data` on an optional
JSON value: yields the fields when the value is a non-empty dict. -/
def truthyDict : Option Json → Option (List (String × Json))
  | some (Json.obj fields) => if fields.isEmpty then none else some fields
  | _ => none

/-! ## Python string primitives (ASCII semantics) -/

/-- `str.strip()` on a character list. -/
def pyStripChars (s : List Char) : List Char :=
  ((s.dropWhile Char.isWhitespace).reverse.dropWhile Char.isWhitespace).reverse

/-- `str.strip()` -/
def pyStrip (s : String) : String := ⟨pyStripChars s.data⟩

/-- `str.upper()` -/
def pyUpper (s : String) : String := ⟨s.data.map Char.toUpper⟩

/-- `str.lower()` -/
def pyLower (s : String) : String := ⟨s.data.map Char.toLower⟩

/-- `str.capitalize()`: first character upper-cased, the rest lower-cased. -/
def pyCapitalize (s : String) : String :=
  match s.data with
  | [] => ""
  | c :: rest => ⟨c.toUpper :: rest.map Char.toLower⟩

/-- `word[:1].upper() + word[1:]`: first character upper-cased, rest kept. -/
def capFirst (s : String) : String :=
  match s.data with
  | [] => s
  | c :: rest => ⟨c.toUpper :: rest⟩

/-- Does `needle` occur at the head of `hay`? (helper for substring search) -/
def leadMatch : List Char → List Char → Bool
  | [], _ => true
  | _ :: _, [] => false
  | a :: as, b :: bs => a = b && leadMatch as bs

/-- Python substring test `needle in hay` on character lists. -/
def pyInChars (needle : List Char) : List Char → Bool
  | [] => leadMatch needle []
  | c :: rest => leadMatch needle (c :: rest) || pyInChars needle rest

/-- Python substring test `needle in hay`. -/
def pyIn (needle hay : String) : Bool := pyInChars needle.data hay.data

/-- Python string comparison `a <= b` (lexicographic by code point). -/
def charListLe : List Char → List Char → Bool
  | [], _ => true
  | _ :: _, [] => false
  | x :: xs, y :: ys =>
    if x.toNat < y.toNat then true
    else if y.toNat < x.toNat then false
    else charListLe xs ys

/-- Insert into an ascending list (helper for `sorted`). -/
def insertAsc (x : String) : List String → List String
  | [] => [x]
  | y :: ys => if charListLe x.data y.data then x :: y :: ys else y :: insertAsc x ys

/-- Python `sorted` on a collection of strings (ascending by code points). -/
def pySorted (xs : List String) : List String := xs.foldr insertAsc []

/-- Python `str.isalpha()`: non-empty and every character alphabetic. -/
def pyIsAlpha (s : List Char) : Bool := !s.isEmpty && s.all Char.isAlpha

/-- Is the character cased? (ASCII) -/
def isCased (c : Char) : Bool := c.isUpper || c.isLower

/-- Python `str.isupper()`: at least one cased character and every cased
character upper-case. -/
def pyIsUpper (s : List Char) : Bool :=
  s.any isCased && s.all (fun c => !isCased c || c.isUpper)

/-- Python `min` on rationals (`min(a, b)` returns `a` when `a <= b`). -/
def pymin (a b : ℚ) : ℚ := if a ≤ b then a else b

/-! ## cleanse-dictionary.py -/

namespace Cleanse

/-- Rate-limit backoff controls (source lines 73-75). -/
def RATE_LIMIT_MAX_RETRIES : Nat := 6

def RATE_LIMIT_BASE_DELAY : ℚ := 3 / 4

def RATE_LIMIT_MAX_DELAY : ℚ := 20

/-- `entry.get(key) or ""` read as a string (non-string or falsy values give
the empty string). -/
def getStrField (entry : Json) (key : String) : String :=
  match entry.get key with
  | some (Json.str s) => s
  | _ => ""

/-- `entry.get("definitions", []) or []` as a list. -/
def entryDefinitions (entry : Json) : List Json :=
  match entry.get "definitions" with
  | some (Json.arr ds) => ds
  | _ => []

/-- `d.get("definition")` read as a string (`strip_html(None)` is `""`). -/
def definitionText (d : Json) : String :=
  match d.get "definition" with
  | some (Json.str s) => s
  | _ => ""

/-- `extract_pos_list`: all `partOfSpeech` values in the language section,
stripped, upper-cased, deduplicated, order of first occurrence preserved. -/
def extract_pos_list (lang_section : List Json) : List String :=
  (lang_section.foldl
    (fun acc entry =>
      let pos := pyStrip (getStrField entry "partOfSpeech")
      if pos = "" then acc
      else
        let pos_u := pyUpper pos
        if pos_u ∈ acc.2 then acc else (acc.1 ++ [pos_u], acc.2 ++ [pos_u]))
    (([], []) : List String × List String)).1

/-- The plural markers scanned by `is_plural_noun_entry`. -/
def plural_markers : List String :=
  ["plural of", "plural form of", "plurals of", "pluriel de", "plural von",
   "plural de", "forma plural"]

/-- `is_plural_noun_entry`, with the HTML stripper passed explicitly. -/
def is_plural_noun_entry (strip_html : String → String)
    (lang_section : List Json) : Bool :=
  lang_section.any fun entry =>
    (entryDefinitions entry).any fun d =>
      let text := pyLower (strip_html (definitionText d))
      plural_markers.any fun m => pyIn m text

/-- Add a tag to the tag set (Python `set.add`, modelled as an ordered list
without duplicates; the final output is sorted anyway). -/
def addTag (tags : List String) (t : String) : List String :=
  if t ∈ tags then tags else tags ++ [t]

/-- Python `set.update` with several tags. -/
def addTags (tags : List String) (ts : List String) : List String :=
  ts.foldl addTag tags

/-- `extract_additional_info`: NOUN singular/plural and best-effort verb
morphology markers, semicolon-joined in sorted order. -/
def extract_additional_info (strip_html : String → String)
    (pos_list : List String) (lang_section : List Json) : String :=
  let def_texts : List String :=
    (lang_section.map fun entry =>
      (entryDefinitions entry).filterMap fun d_obj =>
        let t := pyLower (strip_html (definitionText d_obj))
        if t = "" then none else some t).flatten
  let contains_any : List String → Bool := fun needles =>
    def_texts.any fun t => needles.any fun n => pyIn n t
  let is_noun := "NOUN" ∈ pos_list
  let is_verb := "VERB" ∈ pos_list
  let tags : List String := []
  let tags :=
    if is_noun then
      if is_plural_noun_entry strip_html lang_section then addTag tags "PLURAL"
      else addTag tags "SINGULAR"
    else tags
  let tags :=
    if is_verb then
      let tags :=
        if contains_any ["past participle", "participe passé", "partizip ii"]
        then addTags tags ["PAST_PART", "INFLECTED_FORM"] else tags
      let tags :=
        if contains_any ["present participle", "gerund", "participe présent", "partizip i"]
        then addTags tags ["PRES_PART", "INFLECTED_FORM"] else tags
      let tags :=
        if contains_any ["past tense", "preterite", "prétérit", "imparfait"]
        then addTags tags ["PAST", "INFLECTED_FORM"] else tags
      let tags :=
        if contains_any ["third-person singular", "3rd-person singular", "3rd person singular"]
        then addTags tags ["3PS", "INFLECTED_FORM"] else tags
      let tags :=
        if contains_any ["imperative"] then addTags tags ["IMP", "INFLECTED_FORM"] else tags
      let tags :=
        if contains_any ["infinitive"] then addTag tags "INF" else tags
      let tags :=
        if contains_any ["subjunctive"] then addTags tags ["SUBJ", "INFLECTED_FORM"] else tags
      let tags :=
        if contains_any ["form of", "inflection of", "conjugation of", "conjugated form of"]
        then addTags tags ["FORM_OF", "INFLECTED_FORM"] else tags
      tags
    else tags
  String.intercalate ";" (pySorted tags)

/-- The module-level counters and output buffers of `cleanse-dictionary.py`
(the state shared by all workers under `stats_lock`). -/
structure RunState where
  validated_out_lines : List String := []
  rejected_lines : List String := []
  nonexistent_lines : List String := []
  locale_skipped_lines : List String := []
  validated_count : Nat := 0
  processed_count : Nat := 0
  skipped_count : Nat := 0
  rejected_count : Nat := 0
  nonexistent_count : Nat := 0
  last_processed_word : Option String := none
deriving DecidableEq, Repr

/-- `MAX_VALIDATED is not None and validated_count >= MAX_VALIDATED` -/
def hitMax (MAX_VALIDATED : Option Nat) (validated_count : Nat) : Bool :=
  match MAX_VALIDATED with
  | none => false
  | some m => m ≤ validated_count

/-- Total number of records sitting in the four outcome buckets. -/
def totalRecords (st : RunState) : Nat :=
  st.validated_out_lines.length + st.rejected_lines.length +
    st.nonexistent_lines.length + st.locale_skipped_lines.length

/-- The validated CSV line written by `record_validated`. -/
def validated_line (strip_html : String → String) (out_word : String)
    (freq : Int) (sec : List Json) : String :=
  let pos_list := extract_pos_list sec
  let additional := extract_additional_info strip_html pos_list sec
  String.intercalate "," ([out_word, toString freq] ++ pos_list ++ [additional]) ++ "\n"

/-- `record_validated` (source lines 328-338): under the lock, refuse when
the validated target is already met, otherwise append the CSV line. -/
def record_validated (MAX_VALIDATED : Option Nat) (strip_html : String → String)
    (out_word : String) (freq : Int) (sec : List Json)
    (st : RunState) : Bool × RunState :=
  if hitMax MAX_VALIDATED st.validated_count then (false, st)
  else
    (true, { st with validated_out_lines :=
        st.validated_out_lines ++ [validated_line strip_html out_word freq sec] })

/-- `section = data.get(lang_code); isinstance(section, list) and section`:
the usable locale section, when present and non-empty. -/
def truthyLocale (fields : List (String × Json)) (lang_code : String) :
    Option (List Json) :=
  match fields.lookup lang_code with
  | some (Json.arr sec) => if sec.isEmpty then none else some sec
  | _ => none

/-- `handle_200` (source lines 340-348): returns
`(validated_success, locale_missing, state)`. -/
def handle_200 (MAX_VALIDATED : Option Nat) (strip_html : String → String)
    (lang_code out_word : String) (freq : Int)
    (fields : List (String × Json)) (st : RunState) : Bool × Bool × RunState :=
  match truthyLocale fields lang_code with
  | none => (false, true, st)
  | some sec =>
    let r := record_validated MAX_VALIDATED strip_html out_word freq sec st
    (r.1, false, r.2)

/-- `record_locale_reject` -/
def record_locale_reject (raw_line : String) (st : RunState) : RunState :=
  { st with locale_skipped_lines :=
      st.locale_skipped_lines ++ [raw_line ++ ",wrong_locale\n"] }

/-- `record_nonexistent` -/
def record_nonexistent (raw_line : String) (st : RunState) : RunState :=
  { st with nonexistent_lines := st.nonexistent_lines ++ [raw_line ++ "\n"] }

/-- `record_rejected` -/
def record_rejected (raw_line reason : String) (st : RunState) : RunState :=
  { st with rejected_lines := st.rejected_lines ++ [raw_line ++ "," ++ reason ++ "\n"] }

/-- `"rate_limited" if status == 429 else ("exception" if status == -1 else
f"http_{status}")` -/
def reason_for (status : Int) : String :=
  if status = 429 then "rate_limited"
  else if status = -1 then "exception"
  else "http_" ++ toString status

/-- The `with stats_lock` block that records completion of a candidate:
`processed_count += 1`, `last_processed_word = word_raw`, and one counter
bumped according to the classification. -/
def bumpValidated (word_raw : String) (st : RunState) : RunState :=
  { st with processed_count := st.processed_count + 1,
            last_processed_word := some word_raw,
            validated_count := st.validated_count + 1 }

def bumpSkipped (word_raw : String) (st : RunState) : RunState :=
  { st with processed_count := st.processed_count + 1,
            last_processed_word := some word_raw,
            skipped_count := st.skipped_count + 1 }

def bumpRejected (word_raw : String) (st : RunState) : RunState :=
  { st with processed_count := st.processed_count + 1,
            last_processed_word := some word_raw,
            rejected_count := st.rejected_count + 1 }

def bumpNonexistent (word_raw : String) (st : RunState) : RunState :=
  { st with processed_count := st.processed_count + 1,
            last_processed_word := some word_raw,
            nonexistent_count := st.nonexistent_count + 1 }

/-- The capitalized follow-up probe performed after a successful first-probe
validation in cap mode (source lines 402-430): a second success records as
well; a locale-missing second response is counted skipped and filed as a
locale reject; 404 and errors do nothing. -/
def cap_followup (MAX_VALIDATED : Option Nat) (strip_html : String → String)
    (lang_code cap_word raw_line : String) (freq : Int)
    (r2 : Int × Option Json) (st : RunState) : RunState :=
  match (if r2.1 = 200 then truthyDict r2.2 else none) with
  | some fields2 =>
    let h := handle_200 MAX_VALIDATED strip_html lang_code cap_word freq fields2 st
    if h.2.1 then
      record_locale_reject raw_line { h.2.2 with skipped_count := h.2.2.skipped_count + 1 }
    else if h.1 then { h.2.2 with validated_count := h.2.2.validated_count + 1 }
    else h.2.2
  | none => st

/-- The capitalized probe taken after a first-probe 404 in cap mode
(source lines 436-473): resolved normally. -/
def caseB_cap (MAX_VALIDATED : Option Nat) (strip_html : String → String)
    (lang_code word_raw cap_word raw_line : String) (freq : Int)
    (r2 : Int × Option Json) (st : RunState) : Bool × RunState :=
  match (if r2.1 = 200 then truthyDict r2.2 else none) with
  | some fields2 =>
    let h := handle_200 MAX_VALIDATED strip_html lang_code cap_word freq fields2 st
    let st4 := if h.1 then bumpValidated word_raw h.2.2
               else if h.2.1 then bumpSkipped word_raw h.2.2
               else bumpRejected word_raw h.2.2
    if h.2.1 then (false, record_locale_reject raw_line st4)
    else (h.1, st4)
  | none =>
    if r2.1 = 404 then (false, record_nonexistent raw_line (bumpNonexistent word_raw st))
    else (false, record_rejected raw_line (reason_for r2.1) (bumpRejected word_raw st))

/-- `check_wiktionary` (source lines 312-490).  `probe` is the lookup-client
boundary: it returns what `fetch_definition` returns for the given spelling
(status and JSON; the URL component of the source's triple is unused by the
caller and omitted).  The returned `Bool` is the function's return value; the
`RunState` is the shared state after the candidate completes. -/
def check_wiktionary (MAX_VALIDATED : Option Nat) (strip_html : String → String)
    (probe : String → Int × Option Json)
    (task_data : String × Int × String) (lang_code : String) (use_cap : Bool)
    (st : RunState) : Bool × RunState :=
  let word_raw := task_data.1
  let freq := task_data.2.1
  let raw_line := task_data.2.2
  -- "If already hit target validated, skip work" (lines 364-366)
  if hitMax MAX_VALIDATED st.validated_count then (false, st)
  else
    let lower_word := word_raw
    let cap_word := pyCapitalize word_raw
    let first_word := if use_cap then lower_word else word_raw
    let r1 := probe first_word
    match (if r1.1 = 200 then truthyDict r1.2 else none) with
    | some fields1 =>
      -- Case A: first probe 200 with a usable non-empty JSON dict
      let h := handle_200 MAX_VALIDATED strip_html lang_code first_word freq fields1 st
      let st2 := if h.1 then bumpValidated word_raw h.2.2
                 else if h.2.1 then bumpSkipped word_raw h.2.2
                 else bumpRejected word_raw h.2.2
      if h.2.1 then (false, record_locale_reject raw_line st2)
      else if h.1 = false then (false, st2)
      else if use_cap && cap_word != first_word then
        (true, cap_followup MAX_VALIDATED strip_html lang_code cap_word raw_line freq
          (probe cap_word) st2)
      else (true, st2)
    | none =>
      if r1.1 = 404 then
        -- Case B: first probe 404
        if use_cap && cap_word != first_word then
          caseB_cap MAX_VALIDATED strip_html lang_code word_raw cap_word raw_line freq
            (probe cap_word) st
        else (false, record_nonexistent raw_line (bumpNonexistent word_raw st))
      else
        -- Case C: first probe error
        (false, record_rejected raw_line (reason_for r1.1) (bumpRejected word_raw st))

/-- A scheduled candidate with its scripted behaviour: either the lookup
results its probes will see, or an unexpected exception escaping the worker
task. -/
inductive CTaskExec where
  | ok (probe : String → Int × Option Json)
  | fault (msg : String)

structure CTask where
  word : String
  freq : Int
  raw_line : String
  exec : CTaskExec

/-- One iteration of the orchestrator's completion loop (source lines
701-710): a normal worker result, or an exception surfaced by
`future.result()`, which is caught, recorded into the retry bucket as a
`__THREAD_EXCEPTION__` line, and counted. -/
def runTask (MAX_VALIDATED : Option Nat) (strip_html : String → String)
    (lang_code : String) (use_cap : Bool) (t : CTask) (st : RunState) : RunState :=
  match t.exec with
  | .fault msg =>
    { st with
      rejected_lines := st.rejected_lines ++ ["__THREAD_EXCEPTION__," ++ msg ++ "\n"],
      rejected_count := st.rejected_count + 1,
      processed_count := st.processed_count + 1 }
  | .ok probe =>
    (check_wiktionary MAX_VALIDATED strip_html probe (t.word, t.freq, t.raw_line)
      lang_code use_cap st).2

/-- The orchestrator's main loop (submission plus completion, serialized,
source lines 693-714): stop as soon as the validated target is met,
otherwise process the next candidate and continue.  Worker faults never
abort the loop. -/
def runCleanse (MAX_VALIDATED : Option Nat) (strip_html : String → String)
    (lang_code : String) (use_cap : Bool) : List CTask → RunState → RunState
  | [], st => st
  | t :: rest, st =>
    if hitMax MAX_VALIDATED st.validated_count then st
    else runCleanse MAX_VALIDATED strip_html lang_code use_cap rest
      (runTask MAX_VALIDATED strip_html lang_code use_cap t st)

/-- One scripted network event for `Cleanse.fetch_definition`: an HTTP
response (status, the parsed `Retry-After` header — `none` absent/falsy,
`some none` present but unparseable, `some (some q)` parsing to `q` — and
the body, where `none` models `resp.json()` raising) or an exception
raised by `requests.get`. -/
inductive FetchEvent where
  | resp (status : Int) (retryAfter : Option (Option ℚ)) (json : Option Json)
  | exc

/-- The jittered exponential-backoff delay computed for a 429 with no usable
`Retry-After` hint (source lines 279-281):
`min(RATE_LIMIT_MAX_DELAY, RATE_LIMIT_BASE_DELAY * 2**attempt)` scaled by the
sampled jitter factor `0.8 + random.random() * 0.4`. -/
def backoff_delay (jitter : Nat → ℚ) (attempt : Nat) : ℚ :=
  pymin RATE_LIMIT_MAX_DELAY (RATE_LIMIT_BASE_DELAY * 2 ^ attempt) * jitter attempt

/-- `fetch_definition` (source lines 248-309) over the scripted events, one
per `requests.get` call.  Only HTTP 429 is retried in place (up to
`RATE_LIMIT_MAX_RETRIES` retries), sleeping the server hint when parseable
and the jittered backoff otherwise; every other non-200 status, and any
exception, returns at once (`-1` is the exception marker).  Returns
`(status, json, requests_made, sleeps)`; the source returns only the first
two (plus the URL), the last two record the observable effects. -/
def fetch_definition (jitter : Nat → ℚ) :
    List FetchEvent → Nat → Int × Option Json × Nat × List ℚ
  | [], _ => (-1, none, 0, [])
  | e :: rest, attempt =>
    match e with
    | .exc => (-1, none, 1, [])
    | .resp status retryAfter json =>
      if status = 429 then
        if RATE_LIMIT_MAX_RETRIES ≤ attempt then (429, none, 1, [])
        else
          let delay : ℚ :=
            match retryAfter with
            | some (some d) => d
            | _ => backoff_delay jitter attempt
          let r := fetch_definition jitter rest (attempt + 1)
          (r.1, r.2.1, r.2.2.1 + 1, delay :: r.2.2.2)
      else if status ≠ 200 then (status, none, 1, [])
      else
        match json with
        | none => (-1, none, 1, [])
        | some d => if d.isObj then (200, some d, 1, []) else (200, none, 1, [])

/-- Phases of one worker running `check_wiktionary` on a candidate whose
single probe returns 200 with a usable locale section (cap mode off).  The
transitions between phases are the three `with stats_lock` blocks this path
executes; between blocks the lock is free and other workers may run. -/
inductive WPhase where
  | start
  | afterGuard
  | afterRecord (ok : Bool)
  | done (ret : Bool)
deriving DecidableEq, Repr

/-- One atomic (lock-protected) step of such a worker; `line` is the
validated CSV line it builds.
* from `start`: the entry guard (source lines 364-366);
* from `afterGuard`: the locked body of `record_validated` (lines 334-338);
* from `afterRecord ok`: the completion stats block (lines 383-392) —
  a worker whose record was refused has `validated1 = locale_missing1 =
  False` and falls into the `rejected_count` branch of that block. -/
def workerStep (MAX_VALIDATED : Option Nat) (line word_raw : String) :
    WPhase × RunState → WPhase × RunState
  | (WPhase.start, st) =>
    if hitMax MAX_VALIDATED st.validated_count then (WPhase.done false, st)
    else (WPhase.afterGuard, st)
  | (WPhase.afterGuard, st) =>
    if hitMax MAX_VALIDATED st.validated_count then (WPhase.afterRecord false, st)
    else (WPhase.afterRecord true,
      { st with validated_out_lines := st.validated_out_lines ++ [line] })
  | (WPhase.afterRecord ok, st) =>
    if ok then (WPhase.done true, bumpValidated word_raw st)
    else (WPhase.done false, bumpRejected word_raw st)
  | (WPhase.done r, st) => (WPhase.done r, st)

/-- Interleave two such workers over the shared state: a `true` schedule
entry steps the first worker, `false` the second. -/
def interleave (MAX_VALIDATED : Option Nat) (line1 word1 line2 word2 : String) :
    List Bool → WPhase × WPhase × RunState → WPhase × WPhase × RunState
  | [], s => s
  | pick :: rest, (p1, p2, st) =>
    if pick then
      let r := workerStep MAX_VALIDATED line1 word1 (p1, st)
      interleave MAX_VALIDATED line1 word1 line2 word2 rest (r.1, p2, r.2)
    else
      let r := workerStep MAX_VALIDATED line2 word2 (p2, st)
      interleave MAX_VALIDATED line1 word1 line2 word2 rest (p1, r.1, r.2)

/-- `str.rsplit("_", 1)` when an underscore is present: the part before the
last underscore, and the part after it. -/
def rsplitUnderscore : List Char → Option (List Char × List Char)
  | [] => none
  | c :: rest =>
    match rsplitUnderscore rest with
    | some (base, suf) => some (c :: base, suf)
    | none => if c = '_' then some ([], rest) else none

/-- `normalize_term` (source lines 89-100): strip surrounding whitespace;
then, when the part after the last underscore looks like a POS tag
(alphabetic, upper-case, length 2..6), drop it together with that
underscore. -/
def normalize_term (term : List Char) : List Char :=
  let t := pyStripChars term
  if t.contains '_' = false then t
  else
    match rsplitUnderscore t with
    | none => t
    | some (base, suf) =>
      if pyIsAlpha suf && pyIsUpper suf &&
         decide (2 ≤ suf.length) && decide (suf.length ≤ 6)
      then base else t

end Cleanse

/-! ## wiktionary_locale_dump.py -/

namespace Wld

/-- The character class of the `_PCT_ESC_RE` regex, `[0-9A-Fa-f]`. -/
def isHexDigitPy (c : Char) : Bool :=
  c.isDigit || ('a' ≤ c && c ≤ 'f') || ('A' ≤ c && c ≤ 'F')

/-- The positions covered by the non-overlapping left-to-right matches of
`_PCT_ESC_RE` (`%[0-9A-Fa-f]{2}`), as the regex engine finds them: one flag
per character of the word. -/
def pctCovered : List Char → List Bool
  | [] => []
  | c :: cs =>
    if c = '%' then
      match cs with
      | b :: d :: rest =>
        if isHexDigitPy b && isHexDigitPy d then
          true :: true :: true :: pctCovered rest
        else false :: pctCovered (b :: d :: rest)
      | [] => [false]
      | [_] => [false, false]
    else false :: pctCovered cs

/-- Specification-side predicate: every `%` in the word starts a valid
two-hex-digit percent escape. -/
def everyPctEscaped : List Char → Bool
  | [] => true
  | c :: cs =>
    if c = '%' then
      match cs with
      | b :: d :: _ => isHexDigitPy b && isHexDigitPy d && everyPctEscaped cs
      | _ => false
    else everyPctEscaped cs

/-- Upper-case hex digit for a nibble. -/
def hexUpper (n : Nat) : Char :=
  if n < 10 then Char.ofNat (48 + n) else Char.ofNat (55 + n)

/-- UTF-8 encoding of one character, as byte values. -/
def utf8Bytes (c : Char) : List Nat :=
  let n := c.toNat
  if n < 128 then [n]
  else if n < 2048 then [192 + n / 64, 128 + n % 64]
  else if n < 65536 then [224 + n / 4096, 128 + n / 64 % 64, 128 + n % 64]
  else [240 + n / 262144, 128 + n / 4096 % 64, 128 + n / 64 % 64, 128 + n % 64]

/-- `%XX` encoding of one byte. -/
def pctEncodeByte (b : Nat) : List Char := ['%', hexUpper (b / 16), hexUpper (b % 16)]

/-- `urllib.parse.quote`'s always-safe characters: ASCII letters, digits,
and `_.-~` (with `safe=""` nothing else is kept). -/
def alwaysSafe (c : Char) : Bool :=
  ('A' ≤ c && c ≤ 'Z') || ('a' ≤ c && c ≤ 'z') || ('0' ≤ c && c ≤ '9') ||
  c = '_' || c = '.' || c = '-' || c = '~'

/-- `urllib.parse.quote(word, safe="")`: percent-encode the UTF-8 bytes of
every character outside the always-safe set. -/
def quote (word : List Char) : List Char :=
  word.foldr
    (fun c acc =>
      (if alwaysSafe c then [c] else ((utf8Bytes c).map pctEncodeByte).flatten) ++ acc)
    []

/-- `url_title` (source lines 128-142): if the word contains `%` and the
regex matches cover every `%`, assume it is already percent-encoded and
return it unchanged; otherwise quote it with no safe characters. -/
def url_title (word : List Char) : List Char :=
  if word.contains '%' then
    if (pctCovered word).any id then
      if (word.zip (pctCovered word)).all (fun p => p.2 || !(p.1 = '%')) then word
      else quote word
    else quote word
  else quote word

/-- `_POS_SUFFIXES` (source lines 146-149). -/
def POS_SUFFIXES : List String :=
  ["NOUN", "VERB", "ADJ", "ADV", "PROPN", "PRON", "DET", "ADP",
   "CONJ", "SCONJ", "CCONJ", "NUM", "PART", "INTJ", "AUX"]

/-- `strip_pos_suffix_for_query` (source lines 151-157). -/
def strip_pos_suffix_for_query (token : String) : String :=
  if token.data.contains '_' = false then token
  else
    match Cleanse.rsplitUnderscore token.data with
    | none => token
    | some (base, suf) =>
      if !base.isEmpty && pyUpper ⟨suf⟩ ∈ POS_SUFFIXES then ⟨base⟩ else token

/-- `get_locale_entries` (source lines 256-262): the locale section as a
list of dict entries, or `[]` when absent, empty, or mis-shaped. -/
def get_locale_entries (data : Option Json) (lang : String) : List Json :=
  match data with
  | some (Json.obj fields) =>
    if fields.isEmpty then []
    else
      match fields.lookup lang with
      | some (Json.arr sec) => sec.filter Json.isObj
      | _ => []
  | _ => []

/-- `strip_html_in_list` (source lines 264-275). -/
def strip_html_in_list (strip_html : String → String) (xs : Json) : Json :=
  match xs with
  | Json.arr elems =>
    Json.arr (elems.map fun x =>
      match x with
      | Json.str s => Json.str (strip_html s)
      | Json.obj fs =>
        Json.obj (fs.map fun kv =>
          match kv.2 with
          | Json.str s => (kv.1, Json.str (strip_html s))
          | v => (kv.1, v))
      | other => other)
  | other => other

/-- `strip_html_in_parsed_examples` (source lines 277-296). -/
def strip_html_in_parsed_examples (strip_html : String → String) (xs : Json) : Json :=
  match xs with
  | Json.arr elems =>
    Json.arr (elems.map fun x =>
      match x with
      | Json.obj fs =>
        match fs.lookup "example" with
        | some (Json.str s) => Json.obj (setField fs "example" (Json.str (strip_html s)))
        | _ => Json.obj fs
      | Json.str s => Json.str (strip_html s)
      | other => other)
  | other => other

/-- `strip_definitions` (source lines 298-327). -/
def strip_definitions (strip_html : String → String) (entries : List Json) : List Json :=
  entries.map fun entry =>
    match entry with
    | Json.obj fs =>
      match fs.lookup "definitions" with
      | some (Json.arr defs) =>
        let new_defs := defs.map fun d =>
          match d with
          | Json.obj dfs =>
            let dfs :=
              match dfs.lookup "definition" with
              | some (Json.str s) => setField dfs "definition" (Json.str (strip_html s))
              | _ => dfs
            let dfs :=
              match dfs.lookup "examples" with
              | some (Json.arr ex) =>
                setField dfs "examples" (strip_html_in_list strip_html (Json.arr ex))
              | _ => dfs
            let dfs :=
              match dfs.lookup "parsedExamples" with
              | some (Json.arr pex) =>
                setField dfs "parsedExamples"
                  (strip_html_in_parsed_examples strip_html (Json.arr pex))
              | _ => dfs
            Json.obj dfs
          | other => other
        Json.obj (setField fs "definitions" (Json.arr new_defs))
      | _ => Json.obj fs
    | other => other

/-- The four outcome buckets (source lines 360-364). -/
inductive Outcome where
  | validated
  | rejected
  | nonexistent
  | retry
deriving DecidableEq, Repr

/-- `_RETRYABLE` (source line 67). -/
def RETRYABLE : List Int := [429, 500, 502, 503, 504]

/-- One scripted network event for `Wld.fetch_definition`: an HTTP response
(`json = none` on a 200 models `r.json()` raising) or a
`requests.RequestException`. -/
inductive WFetchEvent where
  | resp (status : Int) (json : Option Json)
  | exc

/-- `fetch_definition` (source lines 195-254), first argument the remaining
attempts of `range(max_attempts)` (called with 6).  429/5xx statuses,
JSON-parse failures on a 200, and request exceptions sleep the current
backoff (0.5 doubling, capped at 10, no server hint, no jitter) and retry;
404 and other statuses return at once; exhaustion returns status 0.
Returns `(status, json, requests_made, sleeps)`. -/
def fetch_definition : Nat → List WFetchEvent → ℚ → Int × Option Json × Nat × List ℚ
  | 0, _, _ => (0, none, 0, [])
  | _ + 1, [], _ => (0, none, 0, [])
  | n + 1, e :: rest, backoff =>
    match e with
    | .exc =>
      let r := fetch_definition n rest (pymin (backoff * 2) 10)
      (r.1, r.2.1, r.2.2.1 + 1, backoff :: r.2.2.2)
    | .resp status json =>
      if status = 200 then
        match json with
        | some d => if d.isObj then (200, some d, 1, []) else (200, none, 1, [])
        | none =>
          let r := fetch_definition n rest (pymin (backoff * 2) 10)
          (r.1, r.2.1, r.2.2.1 + 1, backoff :: r.2.2.2)
      else if status = 404 then (404, none, 1, [])
      else if RETRYABLE.contains status then
        let r := fetch_definition n rest (pymin (backoff * 2) 10)
        (r.1, r.2.1, r.2.2.1 + 1, backoff :: r.2.2.2)
      else (status, none, 1, [])

/-- The `attempt` closure of `process_one` (source lines 384-400), taking
the lookup client's post-retry result through the oracle `fetch`:
returns `(status, locale_entries, transient)`. -/
def attempt (fetch : String → Int × Option Json) (strip_html : String → String)
    (lang : String) (w : String) : Int × List Json × Bool :=
  let r := fetch w
  if r.1 = 200 && (match r.2 with | some d => d.isObj | none => false) then
    (200, strip_definitions strip_html (get_locale_entries r.2 lang), false)
  else if r.1 = 404 then (404, [], false)
  else (r.1, [], true)

/-- `process_one` (source lines 368-447): the per-candidate classification,
returning `(outcome, out_word, original_token, freq, entries)`. -/
def process_one (fetch : String → Int × Option Json) (strip_html : String → String)
    (original_token : String) (freq : Int) (lang : String) (cap : Bool) :
    Outcome × String × String × Int × List Json :=
  let query_base := strip_pos_suffix_for_query original_token
  if cap = false then
    let a := attempt fetch strip_html lang query_base
    if a.2.2 then (Outcome.retry, query_base, original_token, freq, [])
    else if a.1 = 404 then (Outcome.nonexistent, query_base, original_token, freq, [])
    else if !a.2.1.isEmpty then (Outcome.validated, query_base, original_token, freq, a.2.1)
    else (Outcome.rejected, query_base, original_token, freq, [])
  else
    let w_lower := pyLower query_base
    let w_cap := capFirst query_base
    let a1 := attempt fetch strip_html lang w_lower
    if a1.2.2 then (Outcome.retry, query_base, original_token, freq, [])
    else if a1.1 = 404 then
      let a2 := attempt fetch strip_html lang w_cap
      if a2.2.2 then (Outcome.retry, query_base, original_token, freq, [])
      else if a2.1 = 404 then (Outcome.nonexistent, query_base, original_token, freq, [])
      else if !a2.2.1.isEmpty then
        (Outcome.validated, query_base, original_token, freq, a2.2.1)
      else (Outcome.rejected, query_base, original_token, freq, [])
    else if a1.2.1.isEmpty then
      let a2 := attempt fetch strip_html lang w_cap
      if a2.2.2 then (Outcome.retry, query_base, original_token, freq, [])
      else if !a2.2.1.isEmpty then
        (Outcome.validated, query_base, original_token, freq, a2.2.1)
      else (Outcome.rejected, query_base, original_token, freq, [])
    else
      let a2 := attempt fetch strip_html lang w_cap
      if a2.2.2 then (Outcome.retry, query_base, original_token, freq, [])
      else
        let merged := if a2.2.1.isEmpty then a1.2.1 else a1.2.1 ++ a2.2.1
        (Outcome.validated, query_base, original_token, freq, merged)

/-- The counters and the four output sinks of the main loop (artifact-file
mode, where all four sinks are open). -/
structure WldState where
  processed : Nat := 0
  validated : Nat := 0
  retry : Nat := 0
  nonexist : Nat := 0
  rejected : Nat := 0
  lastw : Option String := none
  validated_records : List (String × Int × List Json) := []
  r_lines : List String := []
  n_lines : List String := []
  rej_lines : List String := []

/-- Number of records across the four sinks. -/
def wldTotalRecords (st : WldState) : Nat :=
  st.validated_records.length + st.r_lines.length + st.n_lines.length +
    st.rej_lines.length

/-- The body of the result loop for one received result (source lines
529-550); the validated JSONL object is kept structured (its `json.dumps`
serialization is presentation only). -/
def wldStep (st : WldState) (res : Outcome × String × String × Int × List Json) :
    WldState :=
  let (outcome, out_word, orig_token, freq, entries) := res
  let st := { st with processed := st.processed + 1, lastw := some orig_token }
  match outcome with
  | Outcome.validated =>
    { st with validated := st.validated + 1,
              validated_records := st.validated_records ++ [(out_word, freq, entries)] }
  | Outcome.retry =>
    { st with retry := st.retry + 1,
              r_lines := st.r_lines ++ [orig_token ++ "," ++ toString freq ++ "\n"] }
  | Outcome.nonexistent =>
    { st with nonexist := st.nonexist + 1,
              n_lines := st.n_lines ++ [orig_token ++ "," ++ toString freq ++ "\n"] }
  | Outcome.rejected =>
    { st with rejected := st.rejected + 1,
              rej_lines := st.rej_lines ++ [orig_token ++ "," ++ toString freq ++ "\n"] }

/-- A scheduled candidate with scripted behaviour: either the lookup results
its worker will see, or an unexpected exception raised inside the worker. -/
inductive WTask where
  | ok (word : String) (freq : Int) (fetch : String → Int × Option Json)
  | fault (word : String) (freq : Int) (msg : String)

/-- The main result loop (source lines 522-580): results arrive in task
order from `executor.map`; an exception raised inside a worker surfaces when
its result is iterated and — only `KeyboardInterrupt` being handled — aborts
the loop and propagates. -/
def runWld (max_validated : Nat) (lang : String) (cap : Bool)
    (strip_html : String → String) : List WTask → WldState → Except String WldState
  | [], st => Except.ok st
  | t :: rest, st =>
    match t with
    | .fault _ _ msg => Except.error msg
    | .ok w f fetch =>
      if max_validated ≠ 0 ∧ max_validated ≤ st.validated then Except.ok st
      else runWld max_validated lang cap strip_html rest
        (wldStep st (process_one fetch strip_html w f lang cap))

end Wld

/-! ## Concrete scripted lookups (fixtures for counterexamples and witnesses) -/

def entryNoun : Json := Json.obj [("partOfSpeech", Json.str "noun")]

def entryPropn : Json := Json.obj [("partOfSpeech", Json.str "proper noun")]

def docEn : Json := Json.obj [("en", Json.arr [entryNoun])]

def docEnPropn : Json := Json.obj [("en", Json.arr [entryPropn])]

def docDe : Json := Json.obj [("de", Json.arr [entryNoun])]

/-- Both spellings resolve 200 with the requested locale present. -/
def probeBothOk : String → Int × Option Json := fun w =>
  if w = "year" then (200, some docEn)
  else if w = "Year" then (200, some docEnPropn)
  else (404, none)

/-- Lowercase resolves 200 with the locale; the capitalized lookup comes
back transient (retries exhausted, status 0). -/
def fetchCapTransient : String → Int × Option Json := fun w =>
  if w = "year" then (200, some docEn) else (0, none)

/-- Lowercase resolves 200 without the requested locale; capitalized would
resolve 200 with it. -/
def probeWrongLocale : String → Int × Option Json := fun w =>
  if w = "year" then (200, some docDe)
  else if w = "Year" then (200, some docEn)
  else (404, none)

/-! ## Theorems -/

namespace Wld

theorem hex_ne_pct {x : Char} (h : isHexDigitPy x = true) : ¬x = '%' := by
  intro he
  subst he
  exact absurd h (by decide)

theorem pctCovered_cons_ne (c : Char) (cs : List Char) (h : ¬c = '%') :
    pctCovered (c :: cs) = false :: pctCovered cs := by
  rw [pctCovered.eq_def]
  simp [h]

theorem pctCovered_pct_hex (b d : Char) (rest : List Char)
    (hb : isHexDigitPy b = true) (hd : isHexDigitPy d = true) :
    pctCovered ('%' :: b :: d :: rest) = true :: true :: true :: pctCovered rest := by
  rw [pctCovered.eq_def]
  simp [hb, hd]

theorem pctCovered_pct_nohex (b d : Char) (rest : List Char)
    (h : ¬(isHexDigitPy b && isHexDigitPy d) = true) :
    pctCovered ('%' :: b :: d :: rest) = false :: pctCovered (b :: d :: rest) := by
  rw [pctCovered.eq_def]
  simp [h]

theorem pctCovered_pct_one (b : Char) : pctCovered ['%', b] = [false, false] := by
  rw [pctCovered.eq_def]
  simp

theorem everyPct_cons_ne (c : Char) (cs : List Char) (h : ¬c = '%') :
    everyPctEscaped (c :: cs) = everyPctEscaped cs := by
  rw [everyPctEscaped.eq_def]
  simp [h]

theorem everyPct_pct (b d : Char) (rest : List Char) :
    everyPctEscaped ('%' :: b :: d :: rest) =
      (isHexDigitPy b && isHexDigitPy d && everyPctEscaped (b :: d :: rest)) := by
  rw [everyPctEscaped.eq_def]
  simp

theorem everyPct_pct_nil : everyPctEscaped ['%'] = false := rfl

theorem everyPct_pct_one (b : Char) : everyPctEscaped ['%', b] = false := by
  rw [everyPctEscaped.eq_def]
  simp

/-- The covered-positions test of `url_title` agrees with the direct
"every `%` starts a valid escape" reading. -/
theorem zip_all_covered_eq_everyPct (w : List Char) :
    ((w.zip (pctCovered w)).all fun p => p.2 || !(p.1 = '%')) = everyPctEscaped w := by
  induction w using pctCovered.induct with
  | case1 => rfl
  | case2 b d rest hb ih =>
    have hb1 : isHexDigitPy b = true := by simp_all
    have hd1 : isHexDigitPy d = true := by simp_all
    rw [pctCovered_pct_hex b d rest hb1 hd1, everyPct_pct,
      everyPct_cons_ne b _ (hex_ne_pct hb1), everyPct_cons_ne d _ (hex_ne_pct hd1)]
    simp [hb1, hd1, ih]
  | case3 b d rest h ih =>
    rw [pctCovered_pct_nohex b d rest (by simp_all), everyPct_pct]
    cases hbv : isHexDigitPy b <;> cases hdv : isHexDigitPy d <;> simp_all
  | case4 => rfl
  | case5 b =>
    rw [pctCovered_pct_one, everyPct_pct_one]
    rfl
  | case6 c cs h ih =>
    rw [pctCovered_cons_ne c cs h, everyPct_cons_ne c cs h]
    simp [h, ih]

/-- When some `%` occurs and every `%` starts a valid escape, the regex
finds at least one match. -/
theorem pctCovered_any (w : List Char) (hmem : '%' ∈ w)
    (hev : everyPctEscaped w = true) : (pctCovered w).any id = true := by
  induction w using pctCovered.induct with
  | case1 => cases hmem
  | case2 b d rest hb ih =>
    have hb1 : isHexDigitPy b = true := by simp_all
    have hd1 : isHexDigitPy d = true := by simp_all
    rw [pctCovered_pct_hex b d rest hb1 hd1]
    simp
  | case3 b d rest h ih =>
    rw [everyPct_pct] at hev
    cases hbv : isHexDigitPy b <;> cases hdv : isHexDigitPy d <;> simp_all
  | case4 =>
    rw [everyPct_pct_nil] at hev
    cases hev
  | case5 b =>
    rw [everyPct_pct_one] at hev
    cases hev
  | case6 c cs h ih =>
    have hmem' : '%' ∈ cs := by
      rcases List.mem_cons.mp hmem with he | hm
      · exact absurd he.symm h
      · exact hm
    rw [everyPct_cons_ne c cs h] at hev
    rw [pctCovered_cons_ne c cs h]
    simp [ih hmem' hev]

end Wld

/-- C10.  `url_title` returns the word unchanged exactly when it contains a
`%` and every `%` begins a valid two-hex-digit escape; otherwise it
percent-encodes the word with no characters treated as safe
(`quote(word, safe="")`). -/
theorem url_title_spec (word : List Char) :
    Wld.url_title word =
      if word.contains '%' = true ∧ Wld.everyPctEscaped word = true then word
      else Wld.quote word := by
  by_cases hp : word.contains '%' = true
  · by_cases he : Wld.everyPctEscaped word = true
    · have hmem : '%' ∈ word := by simpa [List.contains] using hp
      simp [Wld.url_title, hp, Wld.pctCovered_any word hmem he,
        Wld.zip_all_covered_eq_everyPct, he]
    · simp only [Wld.url_title, hp, if_true, Wld.zip_all_covered_eq_everyPct]
      simp [he]
  · have hmem : '%' ∉ word := by simpa [List.contains] using hp
    simp [Wld.url_title, List.contains, hmem]

namespace Cleanse

theorem rsplit_eq_none (xs : List Char) (h : '_' ∉ xs) :
    rsplitUnderscore xs = none := by
  induction xs with
  | nil => rfl
  | cons c rest ih =>
    have hc : ¬c = '_' := fun e => h (e ▸ List.mem_cons_self c rest)
    have hr : '_' ∉ rest := fun hm => h (List.mem_cons_of_mem c hm)
    simp [rsplitUnderscore, ih hr, hc]

theorem rsplit_append (base suf : List Char) (h : '_' ∉ suf) :
    rsplitUnderscore (base ++ '_' :: suf) = some (base, suf) := by
  induction base with
  | nil => simp [rsplitUnderscore, rsplit_eq_none suf h]
  | cons c bs ih => simp [rsplitUnderscore, ih]

theorem isCased_eq_isAlpha (c : Char) : isCased c = c.isAlpha := by
  simp [isCased, Char.isAlpha, Bool.or_comm]

/-- The POS-suffix test of `normalize_term` in plain terms. -/
theorem pos_tag_cond (suf : List Char) :
    (pyIsAlpha suf && pyIsUpper suf &&
       decide (2 ≤ suf.length) && decide (suf.length ≤ 6)) = true ↔
      (2 ≤ suf.length ∧ suf.length ≤ 6 ∧ ∀ c ∈ suf, c.isAlpha ∧ c.isUpper) := by
  constructor
  · intro h
    simp only [pyIsAlpha, pyIsUpper, Bool.and_eq_true, List.all_eq_true,
      List.any_eq_true, decide_eq_true_eq, Bool.not_eq_true', Bool.or_eq_true] at h
    obtain ⟨⟨⟨⟨hne, hall⟩, _, hupper⟩, h2⟩, h6⟩ := h
    refine ⟨h2, h6, fun c hc => ⟨hall c hc, ?_⟩⟩
    rcases hupper c hc with hnc | hu
    · rw [isCased_eq_isAlpha] at hnc
      rw [hall c hc] at hnc
      cases hnc
    · exact hu
  · rintro ⟨h2, h6, hall⟩
    have hne : suf.isEmpty = false := by
      cases suf with
      | nil => simp at h2
      | cons a l => simp
    have hhd : ∃ c ∈ suf, isCased c = true := by
      cases suf with
      | nil => simp at h2
      | cons a l =>
        exact ⟨a, List.mem_cons_self a l, by
          rw [isCased_eq_isAlpha]
          exact (hall a (List.mem_cons_self a l)).1⟩
    simp only [pyIsAlpha, pyIsUpper, Bool.and_eq_true, List.all_eq_true,
      List.any_eq_true, decide_eq_true_eq, Bool.not_eq_true', Bool.or_eq_true]
    refine ⟨⟨⟨⟨hne, fun c hc => (hall c hc).1⟩, hhd, fun c hc => Or.inr (hall c hc).2⟩, h2⟩, h6⟩

end Cleanse

/-- C9.  `normalize_term` strips surrounding whitespace and then: a term
without an underscore is returned as is; otherwise only the segment after
the last underscore is removed, and only when that suffix is purely
alphabetic, entirely upper-case, and 2 to 6 characters long; the prefix
(with any internal underscores) is kept verbatim. -/
theorem normalize_term_spec (term : List Char) :
    ('_' ∉ pyStripChars term → Cleanse.normalize_term term = pyStripChars term) ∧
    (∀ base suf, pyStripChars term = base ++ '_' :: suf → '_' ∉ suf →
      Cleanse.normalize_term term =
        if 2 ≤ suf.length ∧ suf.length ≤ 6 ∧ ∀ c ∈ suf, c.isAlpha ∧ c.isUpper
        then base else pyStripChars term) := by
  constructor
  · intro h
    have hc : (pyStripChars term).contains '_' = false := by
      simpa [List.contains] using h
    simp only [Cleanse.normalize_term, hc]
    simp
  · intro base suf heq hnu
    have hc : (pyStripChars term).contains '_' = true := by
      rw [heq]
      simp [List.contains]
    have hr : Cleanse.rsplitUnderscore (pyStripChars term) = some (base, suf) := by
      rw [heq]
      exact Cleanse.rsplit_append base suf hnu
    simp only [Cleanse.normalize_term, hc, hr]
    by_cases hok : 2 ≤ suf.length ∧ suf.length ≤ 6 ∧ ∀ c ∈ suf, c.isAlpha ∧ c.isUpper
    · rw [if_pos hok, ((Cleanse.pos_tag_cond suf).mpr hok :)]
      simp
    · rw [if_neg hok]
      have hbf : (pyIsAlpha suf && pyIsUpper suf &&
          decide (2 ≤ suf.length) && decide (suf.length ≤ 6)) = false := by
        rw [← Bool.not_eq_true]
        exact fun hb => hok ((Cleanse.pos_tag_cond suf).mp hb)
      simp [hbf]

namespace Cleanse

theorem totalRecords_bumpValidated (w : String) (st : RunState) :
    totalRecords (bumpValidated w st) = totalRecords st := rfl

theorem totalRecords_bumpSkipped (w : String) (st : RunState) :
    totalRecords (bumpSkipped w st) = totalRecords st := rfl

theorem totalRecords_bumpRejected (w : String) (st : RunState) :
    totalRecords (bumpRejected w st) = totalRecords st := rfl

theorem totalRecords_bumpNonexistent (w : String) (st : RunState) :
    totalRecords (bumpNonexistent w st) = totalRecords st := rfl

theorem totalRecords_record_locale_reject (raw : String) (st : RunState) :
    totalRecords (record_locale_reject raw st) = totalRecords st + 1 := by
  simp [totalRecords, record_locale_reject]
  omega

theorem totalRecords_record_nonexistent (raw : String) (st : RunState) :
    totalRecords (record_nonexistent raw st) = totalRecords st + 1 := by
  simp [totalRecords, record_nonexistent]
  omega

theorem totalRecords_record_rejected (raw reason : String) (st : RunState) :
    totalRecords (record_rejected raw reason st) = totalRecords st + 1 := by
  simp [totalRecords, record_rejected]
  omega

theorem totalRecords_skip_bump (st : RunState) :
    totalRecords { st with skipped_count := st.skipped_count + 1 } = totalRecords st := rfl

theorem totalRecords_validated_bump (st : RunState) :
    totalRecords { st with validated_count := st.validated_count + 1 } = totalRecords st := rfl

theorem totalRecords_append_line (line : String) (st : RunState) :
    totalRecords { st with validated_out_lines := st.validated_out_lines ++ [line] } =
      totalRecords st + 1 := by
  simp [totalRecords]
  omega

theorem handle_200_missing {fs : List (String × Json)} {lang : String}
    (M : Option Nat) (sh : String → String) (w : String) (f : Int) (st : RunState)
    (h : truthyLocale fs lang = none) :
    handle_200 M sh lang w f fs st = (false, true, st) := by
  simp [handle_200, h]

theorem handle_200_ok {fs : List (String × Json)} {lang : String} {sec : List Json}
    {M : Option Nat} {st : RunState} (sh : String → String) (w : String) (f : Int)
    (hsec : truthyLocale fs lang = some sec)
    (hg : hitMax M st.validated_count = false) :
    handle_200 M sh lang w f fs st =
      (true, false, { st with validated_out_lines :=
          st.validated_out_lines ++ [validated_line sh w f sec] }) := by
  simp [handle_200, hsec, record_validated, hg]

theorem handle_200_refused {fs : List (String × Json)} {lang : String} {sec : List Json}
    {M : Option Nat} {st : RunState} (sh : String → String) (w : String) (f : Int)
    (hsec : truthyLocale fs lang = some sec)
    (hg : hitMax M st.validated_count = true) :
    handle_200 M sh lang w f fs st = (false, false, st) := by
  simp [handle_200, hsec, record_validated, hg]

/-- The cap-mode follow-up probe appends at most one further record. -/
theorem cap_followup_total (M : Option Nat) (sh : String → String)
    (lang cw raw : String) (f : Int) (r2 : Int × Option Json) (st : RunState) :
    totalRecords (cap_followup M sh lang cw raw f r2 st) = totalRecords st ∨
    totalRecords (cap_followup M sh lang cw raw f r2 st) = totalRecords st + 1 := by
  unfold cap_followup
  cases hm : (if r2.1 = 200 then truthyDict r2.2 else none) with
  | none => left; rfl
  | some fields2 =>
    cases hloc : truthyLocale fields2 lang with
    | none =>
      right
      simp [handle_200_missing M sh cw f st hloc,
        totalRecords_record_locale_reject, totalRecords_skip_bump]
    | some sec =>
      cases hg : hitMax M st.validated_count with
      | false =>
        right
        simp [handle_200_ok sh cw f hloc hg, totalRecords]
        omega
      | true =>
        left
        simp [handle_200_refused sh cw f hloc hg]

/-- The 404-then-capitalized branch records exactly one outcome (when the
target guard admitted the candidate). -/
theorem caseB_cap_total {M : Option Nat} {st : RunState} (sh : String → String)
    (lang w cw raw : String) (f : Int) (r2 : Int × Option Json)
    (hg : hitMax M st.validated_count = false) :
    totalRecords (caseB_cap M sh lang w cw raw f r2 st).2 = totalRecords st + 1 := by
  unfold caseB_cap
  cases hm : (if r2.1 = 200 then truthyDict r2.2 else none) with
  | none =>
    by_cases h404 : r2.1 = 404 <;>
      simp [h404, totalRecords_record_nonexistent, totalRecords_record_rejected,
        totalRecords_bumpNonexistent, totalRecords_bumpRejected]
  | some fields2 =>
    cases hloc : truthyLocale fields2 lang with
    | none =>
      simp [handle_200_missing M sh cw f st hloc,
        totalRecords_record_locale_reject, totalRecords_bumpSkipped]
    | some sec =>
      simp [handle_200_ok sh cw f hloc hg, totalRecords_bumpValidated,
        totalRecords_append_line]

end Cleanse

namespace Wld

/-- The result loop appends exactly one record per received result. -/
theorem wldStep_total (wst : WldState)
    (res : Outcome × String × String × Int × List Json) :
    wldTotalRecords (wldStep wst res) = wldTotalRecords wst + 1 := by
  obtain ⟨o, ow, tok, f, es⟩ := res
  cases o <;> simp [wldStep, wldTotalRecords] <;> omega

end Wld

namespace Cleanse

/-- A candidate admitted by the target guard appends exactly one record,
except that the cap-mode follow-up may append a second one. -/
theorem check_wiktionary_total_bound {M : Option Nat} {st : RunState}
    (sh : String → String) (probe : String → Int × Option Json)
    (w : String) (f : Int) (raw lang : String) (use_cap : Bool)
    (hg : hitMax M st.validated_count = false) :
    totalRecords (check_wiktionary M sh probe (w, f, raw) lang use_cap st).2 =
        totalRecords st + 1 ∨
      (use_cap = true ∧
        totalRecords (check_wiktionary M sh probe (w, f, raw) lang use_cap st).2 =
          totalRecords st + 2) := by
  simp only [check_wiktionary, hg, Bool.false_eq_true, if_false, ite_self]
  cases hm : (if (probe w).1 = 200 then truthyDict (probe w).2 else none) with
  | some fields1 =>
    cases hloc : truthyLocale fields1 lang with
    | none =>
      left
      simp [handle_200_missing M sh w f st hloc,
        totalRecords_record_locale_reject, totalRecords_bumpSkipped]
    | some sec =>
      by_cases hcap : (use_cap && (pyCapitalize w != w)) = true
      · have huse : use_cap = true := by
          rcases Bool.and_eq_true_iff.mp hcap with ⟨h1, _⟩
          exact h1
        rcases cap_followup_total M sh lang (pyCapitalize w) raw f
            (probe (pyCapitalize w))
            (bumpValidated w { st with validated_out_lines :=
              st.validated_out_lines ++ [validated_line sh w f sec] }) with hd | hd
        · left
          simp [handle_200_ok sh w f hloc hg, hcap, hd,
            totalRecords_bumpValidated, totalRecords_append_line]
        · right
          refine ⟨huse, ?_⟩
          simp [handle_200_ok sh w f hloc hg, hcap, hd,
            totalRecords_bumpValidated, totalRecords_append_line]
      · left
        simp [handle_200_ok sh w f hloc hg, hcap,
          totalRecords_bumpValidated, totalRecords_append_line]
  | none =>
    by_cases h404 : (probe w).1 = 404
    · by_cases hcap : (use_cap && (pyCapitalize w != w)) = true
      · left
        simp [h404, hcap, caseB_cap_total sh lang w (pyCapitalize w) raw f
          (probe (pyCapitalize w)) hg]
      · left
        simp [h404, hcap, totalRecords_record_nonexistent, totalRecords_bumpNonexistent]
    · left
      simp [h404, totalRecords_record_rejected, totalRecords_bumpRejected]

end Cleanse

/-- C1 counterexample.  In cap mode, a candidate whose lowercase and
capitalized probes both return usable locale sections has TWO records
appended for it (two separate validated lines), refuting "never more than
one record per candidate". -/
theorem one_record_counterexample :
    Cleanse.totalRecords
        (Cleanse.check_wiktionary none id probeBothOk ("year", 5, "year,5") "en" true {}).2 = 2 ∧
    (Cleanse.check_wiktionary none id probeBothOk ("year", 5, "year,5") "en" true {}).2.validated_out_lines =
      ["year,5,NOUN,SINGULAR\n", "Year,5,PROPER NOUN,\n"] := by
  constructor
  · decide
  · decide

/-- C1 (amended).  Every candidate admitted by the target guard has exactly
one record appended when cap mode is off; with cap mode on it has one
record, or two when the capitalized follow-up also yields a usable
response; `wiktionary_locale_dump`'s loop records exactly one line per
candidate. -/
theorem one_record_per_candidate (M : Option Nat) (sh : String → String)
    (probe : String → Int × Option Json) (w : String) (f : Int)
    (raw lang : String) (st : Cleanse.RunState)
    (hg : Cleanse.hitMax M st.validated_count = false) :
    (Cleanse.totalRecords
        (Cleanse.check_wiktionary M sh probe (w, f, raw) lang false st).2 =
      Cleanse.totalRecords st + 1) ∧
    (Cleanse.totalRecords
        (Cleanse.check_wiktionary M sh probe (w, f, raw) lang true st).2 =
          Cleanse.totalRecords st + 1 ∨
     Cleanse.totalRecords
        (Cleanse.check_wiktionary M sh probe (w, f, raw) lang true st).2 =
          Cleanse.totalRecords st + 2) ∧
    (∀ (wst : Wld.WldState) (res : Wld.Outcome × String × String × Int × List Json),
      Wld.wldTotalRecords (Wld.wldStep wst res) = Wld.wldTotalRecords wst + 1) := by
  refine ⟨?_, ?_, fun wst res => Wld.wldStep_total wst res⟩
  · rcases Cleanse.check_wiktionary_total_bound sh probe w f raw lang false hg with h | h
    · exact h
    · exact absurd h.1 (by simp)
  · rcases Cleanse.check_wiktionary_total_bound sh probe w f raw lang true hg with h | h
    · exact Or.inl h
    · exact Or.inr h.2

/-- C1 witness: the amended statement at a concrete admitted candidate. -/
theorem one_record_per_candidate_witness :
    Cleanse.hitMax none (({} : Cleanse.RunState)).validated_count = false ∧
    Cleanse.totalRecords
        (Cleanse.check_wiktionary none id probeBothOk ("year", 5, "year,5") "en" false {}).2 =
      Cleanse.totalRecords {} + 1 := by
  have h := one_record_per_candidate none id probeBothOk "year" 5 "year,5" "en" {} (by decide)
  exact ⟨by decide, h.1⟩

namespace Cleanse

/-- Sanity of the critical-section decomposition: running one worker's three
lock-protected steps back-to-back is exactly `check_wiktionary` on a
candidate whose probe returns a usable locale section (cap mode off). -/
theorem workerStep_serial (M : Option Nat) (sh : String → String)
    (probe : String → Int × Option Json) (w : String) (f : Int)
    (raw lang : String) (st : RunState) (fs : List (String × Json)) (sec : List Json)
    (hp : probe w = (200, some (Json.obj fs))) (hfs : fs.isEmpty = false)
    (hsec : truthyLocale fs lang = some sec) :
    (workerStep M (validated_line sh w f sec) w
      (workerStep M (validated_line sh w f sec) w
        (workerStep M (validated_line sh w f sec) w (WPhase.start, st)))).2 =
      (check_wiktionary M sh probe (w, f, raw) lang false st).2 := by
  by_cases hg : hitMax M st.validated_count = true
  · simp [workerStep, check_wiktionary, hg]
  · have hg' : hitMax M st.validated_count = false := by
      cases h : hitMax M st.validated_count
      · rfl
      · exact absurd h hg
    simp [workerStep, check_wiktionary, hg', hp, truthyDict, hfs,
      handle_200_ok sh w f hsec hg', bumpValidated]

end Cleanse

/-- C2.  With a validated-output target of 1 and two concurrently admitted
workers, the interleaving (A guard, B guard, A record, B record, A count,
B count) — legal because `record_validated`'s check and the
`validated_count` increment are separate critical sections — commits both
candidates: `validated_count` reaches 2 and two validated lines are
written, violating the "never exceeds the target" invariant. -/
theorem validated_target_race :
    (Cleanse.interleave (some 1) "a,1,NOUN,SINGULAR\n" "a" "b,2,NOUN,SINGULAR\n" "b"
        [true, false, true, false, true, false]
        (Cleanse.WPhase.start, Cleanse.WPhase.start, {})) =
      (Cleanse.WPhase.done true, Cleanse.WPhase.done true,
        { validated_out_lines := ["a,1,NOUN,SINGULAR\n", "b,2,NOUN,SINGULAR\n"],
          validated_count := 2, processed_count := 2,
          last_processed_word := some "b" }) ∧
    Cleanse.hitMax (some 1) 2 = true := by
  constructor
  · decide
  · decide

/-- C3 counterexample.  In cap mode, after the lowercase lookup succeeds
with the requested locale present, a transient failure of the capitalized
probe does not leave the lowercase success in place: `process_one` returns
`Retry`, discarding the validated lowercase result. -/
theorem cap_merge_counterexample :
    Wld.process_one fetchCapTransient id "year" 5 "en" true =
      (Wld.Outcome.retry, "year", "year", 5, []) ∧
    Wld.attempt fetchCapTransient id "en" "year" = (200, [entryNoun], false) ∧
    Wld.attempt fetchCapTransient id "en" "Year" = (0, [], true) := by
  refine ⟨rfl, rfl, rfl⟩

/-- C3 (amended).  In cap mode, once the lowercase lookup succeeds with the
locale present: a capitalized 404 or missing-locale result leaves a single
Validated record; a capitalized success merges by concatenating its entries
after the lowercase ones into that single record, keyed by the
suffix-stripped token; but a transient capitalized failure downgrades the
whole candidate to Retry. -/
theorem cap_merge_amended (fetch : String → Int × Option Json)
    (sh : String → String) (lang token : String) (f : Int) (e1 : List Json)
    (h1 : Wld.attempt fetch sh lang
        (pyLower (Wld.strip_pos_suffix_for_query token)) = (200, e1, false))
    (hne : e1.isEmpty = false) :
    Wld.process_one fetch sh token f lang true =
      (if (Wld.attempt fetch sh lang
            (capFirst (Wld.strip_pos_suffix_for_query token))).2.2 = true
       then (Wld.Outcome.retry, Wld.strip_pos_suffix_for_query token, token, f,
         ([] : List Json))
       else (Wld.Outcome.validated, Wld.strip_pos_suffix_for_query token, token, f,
         e1 ++ (Wld.attempt fetch sh lang
           (capFirst (Wld.strip_pos_suffix_for_query token))).2.1)) := by
  simp only [Wld.process_one, h1, Bool.false_eq_true, if_false, hne]
  by_cases ht :
      (Wld.attempt fetch sh lang (capFirst (Wld.strip_pos_suffix_for_query token))).2.2 = true
  · simp [ht]
  · by_cases hemp :
        (Wld.attempt fetch sh lang (capFirst (Wld.strip_pos_suffix_for_query token))).2.1.isEmpty = true
    · have : (Wld.attempt fetch sh lang
          (capFirst (Wld.strip_pos_suffix_for_query token))).2.1 = [] :=
        List.isEmpty_iff.mp hemp
      simp [ht, hemp, this]
    · simp [ht, hemp]

/-- C3 witness: the amended statement at a concrete both-succeed input. -/
theorem cap_merge_amended_witness :
    Wld.attempt probeBothOk id "en"
        (pyLower (Wld.strip_pos_suffix_for_query "year")) = (200, [entryNoun], false) ∧
    ([entryNoun] : List Json).isEmpty = false ∧
    Wld.process_one probeBothOk id "year" 5 "en" true =
      (if (Wld.attempt probeBothOk id "en"
            (capFirst (Wld.strip_pos_suffix_for_query "year"))).2.2 = true
       then (Wld.Outcome.retry, Wld.strip_pos_suffix_for_query "year", "year", 5,
         ([] : List Json))
       else (Wld.Outcome.validated, Wld.strip_pos_suffix_for_query "year", "year", 5,
         [entryNoun] ++ (Wld.attempt probeBothOk id "en"
           (capFirst (Wld.strip_pos_suffix_for_query "year"))).2.1)) :=
  ⟨rfl, rfl, cap_merge_amended probeBothOk id "en" "year" 5 [entryNoun] rfl rfl⟩

/-- C4 counterexample.  `cleanse-dictionary`'s `fetch_definition` does NOT
retry server errors: a 500 response returns immediately after a single
request with no sleep, even though a retry was scripted to succeed; an
exception likewise returns at once with the `-1` marker.  (500 is in the
other client's retryable set.) -/
theorem lookup_retry_counterexample :
    Cleanse.fetch_definition (fun _ => 1)
        [Cleanse.FetchEvent.resp 500 none none,
         Cleanse.FetchEvent.resp 200 none (some docEn)] 0 = (500, none, 1, []) ∧
    Cleanse.fetch_definition (fun _ => 1)
        [Cleanse.FetchEvent.exc,
         Cleanse.FetchEvent.resp 200 none (some docEn)] 0 = (-1, none, 1, []) ∧
    Wld.RETRYABLE.contains 500 = true := by
  refine ⟨rfl, rfl, by decide⟩

/-- C4 (amended).  In `cleanse-dictionary.py` only HTTP 429 is retried in
place — honouring a parseable `Retry-After` hint, else the jittered
exponential backoff — up to `RATE_LIMIT_MAX_RETRIES` retries, after which
429 is returned; every other non-200 status and any exception returns after
the single attempt.  In `wiktionary_locale_dump.py` the retryable statuses
are retried with the un-jittered 0.5-doubling-to-10 backoff and no hint, and
exhausting the 6 attempts returns status 0 (not the last status). -/
theorem lookup_retry_amended :
    (∀ (jit : Nat → ℚ) (s : Int) (ra : Option (Option ℚ)) (j : Option Json)
        (rest : List Cleanse.FetchEvent) (a : Nat), s ≠ 429 → s ≠ 200 →
      Cleanse.fetch_definition jit (Cleanse.FetchEvent.resp s ra j :: rest) a =
        (s, none, 1, [])) ∧
    (∀ (jit : Nat → ℚ) (rest : List Cleanse.FetchEvent) (a : Nat),
      Cleanse.fetch_definition jit (Cleanse.FetchEvent.exc :: rest) a =
        (-1, none, 1, [])) ∧
    (∀ (jit : Nat → ℚ) (q : ℚ) (j : Option Json)
        (rest : List Cleanse.FetchEvent) (a : Nat),
      a < Cleanse.RATE_LIMIT_MAX_RETRIES →
      Cleanse.fetch_definition jit (Cleanse.FetchEvent.resp 429 (some (some q)) j :: rest) a =
        ((Cleanse.fetch_definition jit rest (a + 1)).1,
         (Cleanse.fetch_definition jit rest (a + 1)).2.1,
         (Cleanse.fetch_definition jit rest (a + 1)).2.2.1 + 1,
         q :: (Cleanse.fetch_definition jit rest (a + 1)).2.2.2)) ∧
    (∀ (jit : Nat → ℚ) (j : Option Json) (rest : List Cleanse.FetchEvent) (a : Nat),
      a < Cleanse.RATE_LIMIT_MAX_RETRIES →
      Cleanse.fetch_definition jit (Cleanse.FetchEvent.resp 429 none j :: rest) a =
        ((Cleanse.fetch_definition jit rest (a + 1)).1,
         (Cleanse.fetch_definition jit rest (a + 1)).2.1,
         (Cleanse.fetch_definition jit rest (a + 1)).2.2.1 + 1,
         Cleanse.backoff_delay jit a :: (Cleanse.fetch_definition jit rest (a + 1)).2.2.2)) ∧
    (∀ (jit : Nat → ℚ) (ra : Option (Option ℚ)) (j : Option Json)
        (rest : List Cleanse.FetchEvent) (a : Nat),
      Cleanse.RATE_LIMIT_MAX_RETRIES ≤ a →
      Cleanse.fetch_definition jit (Cleanse.FetchEvent.resp 429 ra j :: rest) a =
        (429, none, 1, [])) ∧
    (∀ s : Int, s ∈ Wld.RETRYABLE →
      Wld.fetch_definition 6 (List.replicate 6 (Wld.WFetchEvent.resp s none)) (1 / 2) =
        (0, none, 6, [1 / 2, 1, 2, 4, 8, 10])) := by
  refine ⟨?_, ?_, ?_, ?_, ?_, ?_⟩
  · intro jit s ra j rest a h429 h200
    simp [Cleanse.fetch_definition, h429, h200]
  · intro jit rest a
    rfl
  · intro jit q j rest a ha
    have hna : ¬Cleanse.RATE_LIMIT_MAX_RETRIES ≤ a := by omega
    simp [Cleanse.fetch_definition, hna]
  · intro jit j rest a ha
    have hna : ¬Cleanse.RATE_LIMIT_MAX_RETRIES ≤ a := by omega
    simp [Cleanse.fetch_definition, hna]
  · intro jit ra j rest a ha
    simp [Cleanse.fetch_definition, ha]
  · intro s hs
    simp only [Wld.RETRYABLE, List.mem_cons, List.mem_singleton, List.not_mem_nil,
      or_false] at hs
    rcases hs with h | h | h | h | h <;> subst h <;>
      norm_num [Wld.fetch_definition, List.replicate, pymin, Wld.RETRYABLE]

/-- C4 witness: the amended characterization at concrete inputs. -/
theorem lookup_retry_amended_witness :
    Cleanse.fetch_definition (fun _ => 1) [Cleanse.FetchEvent.resp 503 none none] 2 =
      (503, none, 1, []) ∧
    Cleanse.fetch_definition (fun _ => 1)
        (Cleanse.FetchEvent.resp 429 (some (some 7)) none :: []) 0 =
      ((Cleanse.fetch_definition (fun _ => 1) [] 1).1,
       (Cleanse.fetch_definition (fun _ => 1) [] 1).2.1,
       (Cleanse.fetch_definition (fun _ => 1) [] 1).2.2.1 + 1,
       7 :: (Cleanse.fetch_definition (fun _ => 1) [] 1).2.2.2) ∧
    Wld.fetch_definition 6 (List.replicate 6 (Wld.WFetchEvent.resp 503 none)) (1 / 2) =
      (0, none, 6, [1 / 2, 1, 2, 4, 8, 10]) := by
  have h := lookup_retry_amended
  exact ⟨h.1 (fun _ => 1) 503 none none [] 2 (by decide) (by decide),
         h.2.2.1 (fun _ => 1) 7 none [] 0 (by decide),
         h.2.2.2.2.2 503 (by decide)⟩

/-- C5 counterexample.  In `cleanse-dictionary`'s cap mode, a lowercase 200
that lacks the requested locale is immediately filed as a wrong-locale
reject and the candidate fails — the capitalized spelling, which was
scripted to validate, is never consulted. -/
theorem wrong_locale_cap_counterexample :
    (Cleanse.check_wiktionary none id probeWrongLocale ("year", 5, "year,5") "en" true {}).1 =
      false ∧
    (Cleanse.check_wiktionary none id probeWrongLocale ("year", 5, "year,5") "en" true {}).2.locale_skipped_lines =
      ["year,5,wrong_locale\n"] ∧
    (Cleanse.check_wiktionary none id probeWrongLocale ("year", 5, "year,5") "en" true {}).2.validated_out_lines =
      [] ∧
    probeWrongLocale "Year" = (200, some docEn) ∧
    Cleanse.truthyLocale [("en", Json.arr [entryNoun])] "en" = some [entryNoun] := by
  refine ⟨by decide, by decide, by decide, rfl, rfl⟩

/-- C5 (amended).  In `wiktionary_locale_dump`'s `process_one` (cap mode), a
lowercase 200 that lacks the locale still triggers the capitalized lookup:
a capitalized success with entries yields Validated, a capitalized
non-transient result without entries yields Rejected, a transient one
Retry.  In `cleanse-dictionary`'s `check_wiktionary` (cap mode), the same
situation is immediately recorded as a wrong-locale reject — independent of
what the capitalized probe would return. -/
theorem wrong_locale_cap_amended :
    (∀ (fetch : String → Int × Option Json) (sh : String → String)
        (lang token : String) (f : Int),
      Wld.attempt fetch sh lang (pyLower (Wld.strip_pos_suffix_for_query token)) =
          (200, [], false) →
      Wld.process_one fetch sh token f lang true =
        (if (Wld.attempt fetch sh lang
              (capFirst (Wld.strip_pos_suffix_for_query token))).2.2 = true
         then (Wld.Outcome.retry, Wld.strip_pos_suffix_for_query token, token, f,
           ([] : List Json))
         else if (Wld.attempt fetch sh lang
              (capFirst (Wld.strip_pos_suffix_for_query token))).2.1.isEmpty = false
         then (Wld.Outcome.validated, Wld.strip_pos_suffix_for_query token, token, f,
           (Wld.attempt fetch sh lang
             (capFirst (Wld.strip_pos_suffix_for_query token))).2.1)
         else (Wld.Outcome.rejected, Wld.strip_pos_suffix_for_query token, token, f,
           ([] : List Json)))) ∧
    (∀ (M : Option Nat) (sh : String → String) (probe : String → Int × Option Json)
        (w : String) (f : Int) (raw lang : String) (st : Cleanse.RunState)
        (fs : List (String × Json)),
      probe w = (200, some (Json.obj fs)) → fs.isEmpty = false →
      Cleanse.truthyLocale fs lang = none →
      Cleanse.hitMax M st.validated_count = false →
      Cleanse.check_wiktionary M sh probe (w, f, raw) lang true st =
        (false, Cleanse.record_locale_reject raw (Cleanse.bumpSkipped w st))) := by
  constructor
  · intro fetch sh lang token f h1
    simp only [Wld.process_one, h1, Bool.false_eq_true, if_false]
    by_cases ht : (Wld.attempt fetch sh lang
        (capFirst (Wld.strip_pos_suffix_for_query token))).2.2 = true
    · simp [ht]
    · by_cases hemp : (Wld.attempt fetch sh lang
          (capFirst (Wld.strip_pos_suffix_for_query token))).2.1.isEmpty = true
      · simp [ht, hemp]
      · simp [ht, hemp]
  · intro M sh probe w f raw lang st fs hp hfs hloc hg
    simp [Cleanse.check_wiktionary, hg, hp, truthyDict, hfs,
      Cleanse.handle_200_missing M sh w f st hloc]

/-- C5 witness: both conjuncts at concrete inputs. -/
theorem wrong_locale_cap_amended_witness :
    Wld.attempt probeWrongLocale id "en"
        (pyLower (Wld.strip_pos_suffix_for_query "year")) = (200, [], false) ∧
    Wld.process_one probeWrongLocale id "year" 5 "en" true =
      (if (Wld.attempt probeWrongLocale id "en"
            (capFirst (Wld.strip_pos_suffix_for_query "year"))).2.2 = true
       then (Wld.Outcome.retry, Wld.strip_pos_suffix_for_query "year", "year", 5,
         ([] : List Json))
       else if (Wld.attempt probeWrongLocale id "en"
            (capFirst (Wld.strip_pos_suffix_for_query "year"))).2.1.isEmpty = false
       then (Wld.Outcome.validated, Wld.strip_pos_suffix_for_query "year", "year", 5,
         (Wld.attempt probeWrongLocale id "en"
           (capFirst (Wld.strip_pos_suffix_for_query "year"))).2.1)
       else (Wld.Outcome.rejected, Wld.strip_pos_suffix_for_query "year", "year", 5,
         ([] : List Json))) ∧
    Cleanse.check_wiktionary none id probeWrongLocale ("year", 5, "year,5") "en" true {} =
      (false, Cleanse.record_locale_reject "year,5" (Cleanse.bumpSkipped "year" {})) := by
  have h := wrong_locale_cap_amended
  refine ⟨rfl, h.1 probeWrongLocale id "en" "year" 5 rfl, ?_⟩
  exact h.2 none id probeWrongLocale "year" 5 "year,5" "en" {} [("de", Json.arr [entryNoun])]
    rfl rfl rfl rfl

/-- C6.  A lookup that is rate-limited on every attempt makes exactly
`1 + RATE_LIMIT_MAX_RETRIES` requests and comes back as 429; the classifier
then files the candidate in the retry bucket (`R` file, the "Retry" column
of the progress line) with the `rate_limited` reason and counts it. -/
theorem rate_limited_exhaustion (jit : Nat → ℚ) (M : Option Nat)
    (sh : String → String) (lang : String) (use_cap : Bool) (w raw : String)
    (f : Int) (st : Cleanse.RunState)
    (hg : Cleanse.hitMax M st.validated_count = false) :
    (Cleanse.fetch_definition jit
        (List.replicate (1 + Cleanse.RATE_LIMIT_MAX_RETRIES)
          (Cleanse.FetchEvent.resp 429 none none)) 0).2.2.1 =
      1 + Cleanse.RATE_LIMIT_MAX_RETRIES ∧
    (Cleanse.fetch_definition jit
        (List.replicate (1 + Cleanse.RATE_LIMIT_MAX_RETRIES)
          (Cleanse.FetchEvent.resp 429 none none)) 0).1 = 429 ∧
    (Cleanse.fetch_definition jit
        (List.replicate (1 + Cleanse.RATE_LIMIT_MAX_RETRIES)
          (Cleanse.FetchEvent.resp 429 none none)) 0).2.1 = none ∧
    Cleanse.check_wiktionary M sh (fun _ => (429, none)) (w, f, raw) lang use_cap st =
      (false, Cleanse.record_rejected raw "rate_limited" (Cleanse.bumpRejected w st)) := by
  refine ⟨?_, ?_, ?_, ?_⟩
  · norm_num [Cleanse.fetch_definition, Cleanse.RATE_LIMIT_MAX_RETRIES, List.replicate]
  · norm_num [Cleanse.fetch_definition, Cleanse.RATE_LIMIT_MAX_RETRIES, List.replicate]
  · norm_num [Cleanse.fetch_definition, Cleanse.RATE_LIMIT_MAX_RETRIES, List.replicate]
  · simp [Cleanse.check_wiktionary, hg, Cleanse.reason_for]

/-- C6 witness: the statement at a concrete candidate and fresh state. -/
theorem rate_limited_exhaustion_witness :
    Cleanse.hitMax none (({} : Cleanse.RunState)).validated_count = false ∧
    ((Cleanse.fetch_definition (fun _ => 1)
        (List.replicate (1 + Cleanse.RATE_LIMIT_MAX_RETRIES)
          (Cleanse.FetchEvent.resp 429 none none)) 0).2.2.1 =
      1 + Cleanse.RATE_LIMIT_MAX_RETRIES ∧
    (Cleanse.fetch_definition (fun _ => 1)
        (List.replicate (1 + Cleanse.RATE_LIMIT_MAX_RETRIES)
          (Cleanse.FetchEvent.resp 429 none none)) 0).1 = 429 ∧
    (Cleanse.fetch_definition (fun _ => 1)
        (List.replicate (1 + Cleanse.RATE_LIMIT_MAX_RETRIES)
          (Cleanse.FetchEvent.resp 429 none none)) 0).2.1 = none ∧
    Cleanse.check_wiktionary none id (fun _ => (429, none)) ("plus", 14, "plus,14") "en" false {} =
      (false, Cleanse.record_rejected "plus,14" "rate_limited" (Cleanse.bumpRejected "plus" {}))) :=
  ⟨by decide, rate_limited_exhaustion (fun _ => 1) none id "en" false "plus" "plus,14" 14 {} (by decide)⟩

/-- C7 counterexample.  With valid jitter samples (1 for the first five
sleeps, 1.1 for the sixth), the sixth backoff delay is
`min(20, 0.75 * 2^5) * 1.1 = 22`, exceeding the configured ceiling
`RATE_LIMIT_MAX_DELAY = 20`: jitter is applied after the clamp. -/
theorem backoff_ceiling_counterexample :
    (Cleanse.fetch_definition (fun k => if k = 5 then 11 / 10 else 1)
        (List.replicate (1 + Cleanse.RATE_LIMIT_MAX_RETRIES)
          (Cleanse.FetchEvent.resp 429 none none)) 0).2.2.2 =
      [3 / 4, 3 / 2, 3, 6, 12, 22] ∧
    ((4 : ℚ) / 5 ≤ 1 ∧ (1 : ℚ) ≤ 6 / 5) ∧
    ((4 : ℚ) / 5 ≤ 11 / 10 ∧ (11 : ℚ) / 10 ≤ 6 / 5) ∧
    Cleanse.RATE_LIMIT_MAX_DELAY < 22 := by
  refine ⟨?_, by norm_num, by norm_num, by norm_num [Cleanse.RATE_LIMIT_MAX_DELAY]⟩
  norm_num [Cleanse.fetch_definition, Cleanse.RATE_LIMIT_MAX_RETRIES,
    Cleanse.backoff_delay, Cleanse.RATE_LIMIT_BASE_DELAY, Cleanse.RATE_LIMIT_MAX_DELAY,
    pymin, List.replicate]

/-- C7 (amended).  In an all-429, no-hint run: the slept delays are the six
jittered backoff values; the sequence is non-decreasing; each un-jittered
base is clamped to `RATE_LIMIT_MAX_DELAY`, and the jittered delay stays
within the 0.8..1.2 factor of its base — so it can exceed the ceiling by up
to 20 percent (but not more).  The other client's un-jittered ladder is
non-decreasing and capped at its 10-second ceiling. -/
theorem backoff_bounds_amended (jit : Nat → ℚ)
    (hj : ∀ k, 4 / 5 ≤ jit k ∧ jit k ≤ 6 / 5) :
    (Cleanse.fetch_definition jit
        (List.replicate (1 + Cleanse.RATE_LIMIT_MAX_RETRIES)
          (Cleanse.FetchEvent.resp 429 none none)) 0).2.2.2 =
      [Cleanse.backoff_delay jit 0, Cleanse.backoff_delay jit 1,
       Cleanse.backoff_delay jit 2, Cleanse.backoff_delay jit 3,
       Cleanse.backoff_delay jit 4, Cleanse.backoff_delay jit 5] ∧
    List.Chain' (· ≤ ·)
      [Cleanse.backoff_delay jit 0, Cleanse.backoff_delay jit 1,
       Cleanse.backoff_delay jit 2, Cleanse.backoff_delay jit 3,
       Cleanse.backoff_delay jit 4, Cleanse.backoff_delay jit 5] ∧
    (∀ k : Nat,
      pymin Cleanse.RATE_LIMIT_MAX_DELAY (Cleanse.RATE_LIMIT_BASE_DELAY * 2 ^ k) ≤
        Cleanse.RATE_LIMIT_MAX_DELAY ∧
      4 / 5 * pymin Cleanse.RATE_LIMIT_MAX_DELAY (Cleanse.RATE_LIMIT_BASE_DELAY * 2 ^ k) ≤
        Cleanse.backoff_delay jit k ∧
      Cleanse.backoff_delay jit k ≤
        6 / 5 * pymin Cleanse.RATE_LIMIT_MAX_DELAY (Cleanse.RATE_LIMIT_BASE_DELAY * 2 ^ k) ∧
      Cleanse.backoff_delay jit k ≤ 6 / 5 * Cleanse.RATE_LIMIT_MAX_DELAY) ∧
    List.Chain' (· ≤ ·)
      (Wld.fetch_definition 6 (List.replicate 6 (Wld.WFetchEvent.resp 500 none)) (1 / 2)).2.2.2 ∧
    (∀ d ∈ (Wld.fetch_definition 6
        (List.replicate 6 (Wld.WFetchEvent.resp 500 none)) (1 / 2)).2.2.2, d ≤ 10) := by
  have hmb : ∀ k : Nat, (0 : ℚ) ≤
      pymin Cleanse.RATE_LIMIT_MAX_DELAY (Cleanse.RATE_LIMIT_BASE_DELAY * 2 ^ k) := by
    intro k
    unfold pymin
    split
    · norm_num [Cleanse.RATE_LIMIT_MAX_DELAY]
    · norm_num [Cleanse.RATE_LIMIT_BASE_DELAY]
  have hmle : ∀ k : Nat,
      pymin Cleanse.RATE_LIMIT_MAX_DELAY (Cleanse.RATE_LIMIT_BASE_DELAY * 2 ^ k) ≤
        Cleanse.RATE_LIMIT_MAX_DELAY := by
    intro k
    unfold pymin
    split
    · exact le_refl _
    · linarith [lt_of_not_le (by assumption :
        ¬Cleanse.RATE_LIMIT_MAX_DELAY ≤ Cleanse.RATE_LIMIT_BASE_DELAY * 2 ^ k)]
  have hjit : ∀ k : Nat,
      4 / 5 * pymin Cleanse.RATE_LIMIT_MAX_DELAY (Cleanse.RATE_LIMIT_BASE_DELAY * 2 ^ k) ≤
          Cleanse.backoff_delay jit k ∧
        Cleanse.backoff_delay jit k ≤
          6 / 5 * pymin Cleanse.RATE_LIMIT_MAX_DELAY (Cleanse.RATE_LIMIT_BASE_DELAY * 2 ^ k) := by
    intro k
    obtain ⟨h1, h2⟩ := hj k
    unfold Cleanse.backoff_delay
    constructor <;> nlinarith [hmb k]
  have e : ∀ k : Nat, Cleanse.backoff_delay jit k =
      pymin 20 (3 / 4 * 2 ^ k) * jit k := by
    intro k
    simp [Cleanse.backoff_delay, Cleanse.RATE_LIMIT_MAX_DELAY, Cleanse.RATE_LIMIT_BASE_DELAY]
  have m0 : pymin (20 : ℚ) (3 / 4 * 2 ^ (0 : Nat)) = 3 / 4 := by norm_num [pymin]
  have m1 : pymin (20 : ℚ) (3 / 4 * 2 ^ (1 : Nat)) = 3 / 2 := by norm_num [pymin]
  have m2 : pymin (20 : ℚ) (3 / 4 * 2 ^ (2 : Nat)) = 3 := by norm_num [pymin]
  have m3 : pymin (20 : ℚ) (3 / 4 * 2 ^ (3 : Nat)) = 6 := by norm_num [pymin]
  have m4 : pymin (20 : ℚ) (3 / 4 * 2 ^ (4 : Nat)) = 12 := by norm_num [pymin]
  have m5 : pymin (20 : ℚ) (3 / 4 * 2 ^ (5 : Nat)) = 20 := by norm_num [pymin]
  have hw : (Wld.fetch_definition 6
      (List.replicate 6 (Wld.WFetchEvent.resp 500 none)) (1 / 2)).2.2.2 =
      [1 / 2, 1, 2, 4, 8, 10] := by
    norm_num [Wld.fetch_definition, List.replicate, pymin, Wld.RETRYABLE]
  refine ⟨?_, ?_, ?_, ?_, ?_⟩
  · norm_num [Cleanse.fetch_definition, Cleanse.RATE_LIMIT_MAX_RETRIES, List.replicate]
  · simp only [List.chain'_cons, List.chain'_singleton, and_true]
    rw [e 0, e 1, e 2, e 3, e 4, e 5, m0, m1, m2, m3, m4, m5]
    refine ⟨?_, ?_, ?_, ?_, ?_⟩ <;>
      · first
        | linarith [hj 0, hj 1]
        | linarith [hj 1, hj 2]
        | linarith [hj 2, hj 3]
        | linarith [hj 3, hj 4]
        | linarith [hj 4, hj 5]
  · intro k
    refine ⟨hmle k, (hjit k).1, (hjit k).2, ?_⟩
    have h1 := (hjit k).2
    have h2 := hmle k
    nlinarith [hmb k]
  · rw [hw]
    simp only [List.chain'_cons, List.chain'_singleton, and_true]
    norm_num
  · intro d hd
    rw [hw] at hd
    fin_cases hd <;> norm_num

/-- C7 witness: the amended bounds with the constant jitter sample 1. -/
theorem backoff_bounds_amended_witness :
    ((4 : ℚ) / 5 ≤ 1 ∧ (1 : ℚ) ≤ 6 / 5) ∧
    (Cleanse.fetch_definition (fun _ => 1)
        (List.replicate (1 + Cleanse.RATE_LIMIT_MAX_RETRIES)
          (Cleanse.FetchEvent.resp 429 none none)) 0).2.2.2 =
      [Cleanse.backoff_delay (fun _ => 1) 0, Cleanse.backoff_delay (fun _ => 1) 1,
       Cleanse.backoff_delay (fun _ => 1) 2, Cleanse.backoff_delay (fun _ => 1) 3,
       Cleanse.backoff_delay (fun _ => 1) 4, Cleanse.backoff_delay (fun _ => 1) 5] ∧
    List.Chain' (· ≤ ·)
      [Cleanse.backoff_delay (fun _ => 1) 0, Cleanse.backoff_delay (fun _ => 1) 1,
       Cleanse.backoff_delay (fun _ => 1) 2, Cleanse.backoff_delay (fun _ => 1) 3,
       Cleanse.backoff_delay (fun _ => 1) 4, Cleanse.backoff_delay (fun _ => 1) 5] ∧
    Cleanse.backoff_delay (fun _ => 1) 5 ≤ 6 / 5 * Cleanse.RATE_LIMIT_MAX_DELAY := by
  have h := backoff_bounds_amended (fun _ => 1) (fun k => by constructor <;> norm_num)
  exact ⟨by norm_num, h.1, h.2.1, (h.2.2.1 5).2.2.2⟩

/-- C8 counterexample.  In `wiktionary_locale_dump.py` a worker exception is
NOT caught: it aborts the result loop, the remaining candidate is never
processed, and no retry record is written — the run dies with the
exception. -/
theorem worker_fault_counterexample :
    Wld.runWld 0 "en" false id
        [Wld.WTask.fault "w" 1 "boom",
         Wld.WTask.ok "x" 2 (fun _ => (404, none))] {} =
      Except.error "boom" := rfl

/-- C8 (amended).  `cleanse-dictionary`'s orchestrator catches a worker
fault, appends the distinctly tagged `__THREAD_EXCEPTION__` line to the
retry bucket, bumps the retry and processed counters, and continues with
the remaining candidates; `wiktionary_locale_dump`'s loop instead
propagates the fault and aborts. -/
theorem worker_fault_isolation :
    (∀ (M : Option Nat) (sh : String → String) (lang : String) (use_cap : Bool)
        (w : String) (f : Int) (raw msg : String) (rest : List Cleanse.CTask)
        (st : Cleanse.RunState),
      Cleanse.hitMax M st.validated_count = false →
      Cleanse.runCleanse M sh lang use_cap
          (⟨w, f, raw, Cleanse.CTaskExec.fault msg⟩ :: rest) st =
        Cleanse.runCleanse M sh lang use_cap rest
          { st with
            rejected_lines := st.rejected_lines ++ ["__THREAD_EXCEPTION__," ++ msg ++ "\n"],
            rejected_count := st.rejected_count + 1,
            processed_count := st.processed_count + 1 }) ∧
    (∀ (mv : Nat) (lang : String) (cap : Bool) (sh : String → String)
        (w : String) (f : Int) (msg : String) (rest : List Wld.WTask)
        (st : Wld.WldState),
      Wld.runWld mv lang cap sh (Wld.WTask.fault w f msg :: rest) st =
        Except.error msg) := by
  constructor
  · intro M sh lang use_cap w f raw msg rest st hg
    simp [Cleanse.runCleanse, hg, Cleanse.runTask]
  · intro mv lang cap sh w f msg rest st
    rfl

/-- C8 witness: fault isolation at a concrete run. -/
theorem worker_fault_isolation_witness :
    Cleanse.hitMax none (({} : Cleanse.RunState)).validated_count = false ∧
    Cleanse.runCleanse none id "en" false
        [⟨"w", 1, "w,1", Cleanse.CTaskExec.fault "boom"⟩] {} =
      Cleanse.runCleanse none id "en" false []
        { ({} : Cleanse.RunState) with
          rejected_lines :=
            (({} : Cleanse.RunState)).rejected_lines ++ ["__THREAD_EXCEPTION__," ++ "boom" ++ "\n"],
          rejected_count := (({} : Cleanse.RunState)).rejected_count + 1,
          processed_count := (({} : Cleanse.RunState)).processed_count + 1 } ∧
    Wld.runWld 0 "en" false id [Wld.WTask.fault "w" 1 "boom"] {} = Except.error "boom" := by
  have h := worker_fault_isolation
  exact ⟨by decide,
    h.1 none id "en" false "w" 1 "w,1" "boom" [] {} (by decide),
    h.2 0 "en" false id "w" 1 "boom" [] {}⟩

/-- C9 witness: the `normalize_term` characterization at `" plus_ADV "`. -/
theorem normalize_term_spec_witness :
    pyStripChars " plus_ADV ".data = "plus".data ++ '_' :: "ADV".data ∧
    '_' ∉ "ADV".data ∧
    Cleanse.normalize_term " plus_ADV ".data =
      (if 2 ≤ "ADV".data.length ∧ "ADV".data.length ≤ 6 ∧
          ∀ c ∈ "ADV".data, c.isAlpha ∧ c.isUpper
       then "plus".data else pyStripChars " plus_ADV ".data) :=
  ⟨by decide, by decide,
    (normalize_term_spec " plus_ADV ".data).2 "plus".data "ADV".data
      (by decide) (by decide)⟩

namespace Cleanse

theorem hitMax_false_lt {m c : Nat} (h : hitMax (some m) c = false) : c < m := by
  simp [hitMax] at h
  omega

/-- Serialized safety, follow-up step: the cap-mode follow-up never pushes
`validated_count` past the target. -/
theorem cap_followup_validated_le {m : Nat} {st : RunState} (sh : String → String)
    (lang cw raw : String) (f : Int) (r2 : Int × Option Json)
    (h : st.validated_count ≤ m) :
    (cap_followup (some m) sh lang cw raw f r2 st).validated_count ≤ m := by
  unfold cap_followup
  cases hm : (if r2.1 = 200 then truthyDict r2.2 else none) with
  | none => exact h
  | some fields2 =>
    cases hloc : truthyLocale fields2 lang with
    | none =>
      simp [handle_200_missing (some m) sh cw f st hloc, record_locale_reject]
      exact h
    | some sec =>
      cases hg : hitMax (some m) st.validated_count with
      | false =>
        have hlt := hitMax_false_lt hg
        simp [handle_200_ok sh cw f hloc hg]
        omega
      | true =>
        simp [handle_200_refused sh cw f hloc hg]
        exact h

/-- Serialized safety, 404-then-capitalized step. -/
theorem caseB_cap_validated_le {m : Nat} {st : RunState} (sh : String → String)
    (lang w cw raw : String) (f : Int) (r2 : Int × Option Json)
    (h : st.validated_count < m) :
    (caseB_cap (some m) sh lang w cw raw f r2 st).2.validated_count ≤ m := by
  unfold caseB_cap
  cases hm : (if r2.1 = 200 then truthyDict r2.2 else none) with
  | none =>
    by_cases h404 : r2.1 = 404 <;>
      simp [h404, record_nonexistent, bumpNonexistent, record_rejected, bumpRejected] <;>
      omega
  | some fields2 =>
    cases hloc : truthyLocale fields2 lang with
    | none =>
      simp [handle_200_missing (some m) sh cw f st hloc, bumpSkipped, record_locale_reject]
      omega
    | some sec =>
      have hg : hitMax (some m) st.validated_count = false := by
        simp [hitMax]
        omega
      simp [handle_200_ok sh cw f hloc hg, bumpValidated, bumpSkipped, bumpRejected,
        record_locale_reject]
      omega

/-- Serialized safety: one whole `check_wiktionary` call never pushes
`validated_count` past the target.  (The concurrent interleaving of
`validated_target_race` breaks precisely this, by splitting the
record/increment pair across two lock sections.) -/
theorem check_wiktionary_validated_le (m : Nat) (sh : String → String)
    (probe : String → Int × Option Json) (w : String) (f : Int)
    (raw lang : String) (use_cap : Bool) (st : RunState)
    (h : st.validated_count ≤ m) :
    (check_wiktionary (some m) sh probe (w, f, raw) lang use_cap st).2.validated_count ≤ m := by
  cases hg : hitMax (some m) st.validated_count with
  | true =>
    simp [check_wiktionary, hg]
    exact h
  | false =>
    have hlt := hitMax_false_lt hg
    simp only [check_wiktionary, hg, Bool.false_eq_true, if_false, ite_self]
    cases hm : (if (probe w).1 = 200 then truthyDict (probe w).2 else none) with
    | some fields1 =>
      cases hloc : truthyLocale fields1 lang with
      | none =>
        simp [handle_200_missing (some m) sh w f st hloc, bumpSkipped, record_locale_reject]
        omega
      | some sec =>
        by_cases hcap : (use_cap && (pyCapitalize w != w)) = true
        · simp only [handle_200_ok sh w f hloc hg, hcap, if_true, Bool.true_eq_false,
            if_false]
          simp
          apply cap_followup_validated_le
          simp [bumpValidated]
          omega
        · simp [handle_200_ok sh w f hloc hg, hcap, bumpValidated]
          omega
    | none =>
      by_cases h404 : (probe w).1 = 404
      · by_cases hcap : (use_cap && (pyCapitalize w != w)) = true
        · simp only [h404, hcap, if_true]
          simp
          exact caseB_cap_validated_le sh lang w (pyCapitalize w) raw f
            (probe (pyCapitalize w)) hlt
        · simp [h404, hcap, record_nonexistent, bumpNonexistent]
          omega
      · simp [h404, record_rejected, bumpRejected]
        omega

theorem runTask_validated_le (m : Nat) (sh : String → String) (lang : String)
    (use_cap : Bool) (t : CTask) (st : RunState) (h : st.validated_count ≤ m) :
    (runTask (some m) sh lang use_cap t st).validated_count ≤ m := by
  obtain ⟨w, f, raw, ex⟩ := t
  cases ex with
  | fault msg => simpa [runTask] using h
  | ok probe => exact check_wiktionary_validated_le m sh probe w f raw lang use_cap st h

/-- Serialized safety for the whole run: executing the candidates one at a
time, `validated_count` never exceeds the configured target. -/
theorem runCleanse_validated_le (m : Nat) (sh : String → String) (lang : String)
    (use_cap : Bool) (tasks : List CTask) (st : RunState)
    (h : st.validated_count ≤ m) :
    (runCleanse (some m) sh lang use_cap tasks st).validated_count ≤ m := by
  induction tasks generalizing st with
  | nil => simpa [runCleanse] using h
  | cons t rest ih =>
    simp only [runCleanse]
    cases hg : hitMax (some m) st.validated_count with
    | true =>
      simp
      exact h
    | false =>
      simp
      exact ih _ (runTask_validated_le m sh lang use_cap t st h)

end Cleanse

namespace Cleanse

/-- Every increment of `validated_count` is paired with exactly one appended
validated line (follow-up step). -/
theorem cap_followup_count_lines {M : Option Nat} {st : RunState}
    (sh : String → String) (lang cw raw : String) (f : Int)
    (r2 : Int × Option Json)
    (h : st.validated_count = st.validated_out_lines.length) :
    (cap_followup M sh lang cw raw f r2 st).validated_count =
      (cap_followup M sh lang cw raw f r2 st).validated_out_lines.length := by
  unfold cap_followup
  cases hm : (if r2.1 = 200 then truthyDict r2.2 else none) with
  | none => exact h
  | some fields2 =>
    cases hloc : truthyLocale fields2 lang with
    | none =>
      simp [handle_200_missing M sh cw f st hloc, record_locale_reject]
      exact h
    | some sec =>
      cases hg : hitMax M st.validated_count with
      | false =>
        simp [handle_200_ok sh cw f hloc hg]
        omega
      | true =>
        simp [handle_200_refused sh cw f hloc hg]
        exact h

/-- Every increment of `validated_count` is paired with exactly one appended
validated line (404-then-capitalized step). -/
theorem caseB_cap_count_lines {M : Option Nat} {st : RunState}
    (sh : String → String) (lang w cw raw : String) (f : Int)
    (r2 : Int × Option Json)
    (h : st.validated_count = st.validated_out_lines.length) :
    (caseB_cap M sh lang w cw raw f r2 st).2.validated_count =
      (caseB_cap M sh lang w cw raw f r2 st).2.validated_out_lines.length := by
  unfold caseB_cap
  cases hm : (if r2.1 = 200 then truthyDict r2.2 else none) with
  | none =>
    by_cases h404 : r2.1 = 404 <;>
      simp [h404, record_nonexistent, bumpNonexistent, record_rejected, bumpRejected] <;>
      exact h
  | some fields2 =>
    cases hloc : truthyLocale fields2 lang with
    | none =>
      simp [handle_200_missing M sh cw f st hloc, bumpSkipped, record_locale_reject]
      exact h
    | some sec =>
      cases hg : hitMax M st.validated_count with
      | false =>
        simp [handle_200_ok sh cw f hloc hg, bumpValidated]
        omega
      | true =>
        simp [handle_200_refused sh cw f hloc hg, bumpRejected]
        exact h

/-- Every increment of `validated_count` is paired with exactly one appended
validated line (whole candidate). -/
theorem check_wiktionary_count_lines (M : Option Nat) (sh : String → String)
    (probe : String → Int × Option Json) (w : String) (f : Int)
    (raw lang : String) (use_cap : Bool) (st : RunState)
    (h : st.validated_count = st.validated_out_lines.length) :
    (check_wiktionary M sh probe (w, f, raw) lang use_cap st).2.validated_count =
      (check_wiktionary M sh probe (w, f, raw) lang use_cap st).2.validated_out_lines.length := by
  cases hg : hitMax M st.validated_count with
  | true =>
    simp [check_wiktionary, hg]
    exact h
  | false =>
    simp only [check_wiktionary, hg, Bool.false_eq_true, if_false, ite_self]
    cases hm : (if (probe w).1 = 200 then truthyDict (probe w).2 else none) with
    | some fields1 =>
      cases hloc : truthyLocale fields1 lang with
      | none =>
        simp [handle_200_missing M sh w f st hloc, bumpSkipped, record_locale_reject]
        exact h
      | some sec =>
        by_cases hcap : (use_cap && (pyCapitalize w != w)) = true
        · simp only [handle_200_ok sh w f hloc hg, hcap, if_true, Bool.true_eq_false,
            if_false]
          simp
          apply cap_followup_count_lines
          simp [bumpValidated]
          omega
        · simp [handle_200_ok sh w f hloc hg, hcap, bumpValidated]
          omega
    | none =>
      by_cases h404 : (probe w).1 = 404
      · by_cases hcap : (use_cap && (pyCapitalize w != w)) = true
        · simp only [h404, hcap, if_true]
          exact caseB_cap_count_lines sh lang w (pyCapitalize w) raw f
            (probe (pyCapitalize w)) h
        · simp [h404, hcap, record_nonexistent, bumpNonexistent]
          exact h
      · simp [h404, record_rejected, bumpRejected]
        exact h

theorem runTask_count_lines (M : Option Nat) (sh : String → String) (lang : String)
    (use_cap : Bool) (t : CTask) (st : RunState)
    (h : st.validated_count = st.validated_out_lines.length) :
    (runTask M sh lang use_cap t st).validated_count =
      (runTask M sh lang use_cap t st).validated_out_lines.length := by
  obtain ⟨w, f, raw, ex⟩ := t
  cases ex with
  | fault msg => simpa [runTask] using h
  | ok probe => exact check_wiktionary_count_lines M sh probe w f raw lang use_cap st h

/-- After any serialized run — with or without a configured target —
`validated_count` equals the number of validated lines written. -/
theorem runCleanse_count_lines (M : Option Nat) (sh : String → String)
    (lang : String) (use_cap : Bool) (tasks : List CTask) (st : RunState)
    (h : st.validated_count = st.validated_out_lines.length) :
    (runCleanse M sh lang use_cap tasks st).validated_count =
      (runCleanse M sh lang use_cap tasks st).validated_out_lines.length := by
  induction tasks generalizing st with
  | nil => simpa [runCleanse] using h
  | cons t rest ih =>
    simp only [runCleanse]
    cases hg : hitMax M st.validated_count with
    | true =>
      simp
      exact h
    | false =>
      simp
      exact ih _ (runTask_count_lines M sh lang use_cap t st h)

end Cleanse
